import Mathlib

/-!
# lychee-bw-tagger: the batch classification pipeline

A shallow embedding of `main.go`.  The program talks to three external
parties: a MySQL store, an HTTP image source and the image libraries
(decoders, grayscale classifier).  They are modelled as follows.

* The store is an explicit value (`Store`): the rows of the tables the
  program reads and writes.  The SQL statements are Lean functions on it.
* Everything the program cannot control (whether a request succeeds, what
  a decoder answers, whether a statement reaches the server) is an
  `Env`: a record of answer functions.  Answers of the network and of the
  database connection depend on the moment of the call, a logical clock
  that ticks on every external call.
* A `World` is the store, the clock and a ghost trace of the external
  calls made so far, in order.  A method `func (app *App) f(x) (T, error)`
  becomes `f app env x : World → Except Error T × World`.

Log output (`app.logger`) is not modelled; `verbose` therefore selects
nothing in the model.
-/

namespace LycheeBW

/-! ## Go values -/

/-- A non-nil Go `error` value.  `errorString` is what `errors.New` and
`fmt.Errorf` without `%w` build; `wrapError` is `fmt.Errorf` with `%w` on a
non-nil operand; `wrapNil` is `fmt.Errorf` with `%w` on a nil operand (the
formatted text then ends in `%!w(<nil>)` and `errors.Unwrap` gives nil). -/
inductive Error where
  | errorString (s : String)
  | wrapError (msg : String) (err : Error)
  | wrapNil (msg : String)
  deriving DecidableEq, Repr

/-- The call `fmt.Errorf(msg + "%w", err)` for an `err` that may be nil. -/
def Errorf_w (msg : String) (err : Option Error) : Error :=
  match err with
  | some e => Error.wrapError msg e
  | none => Error.wrapNil msg

/-- The function `errors.Unwrap`: the wrapped error, nil when there is none. -/
def Unwrap : Error → Option Error
  | Error.wrapError _ e => some e
  | Error.errorString _ => none
  | Error.wrapNil _ => none

/-- A decoded `image.Image`, kept as an uninterpreted token. -/
structure Image where
  handle : Nat
  deriving DecidableEq, Repr

/-- The part of `*http.Response` the program looks at: the status code and
what `io.ReadAll(resp.Body)` yields. -/
structure Response where
  StatusCode : Int
  Body : Except Error (List UInt8)

/-- The constant `http.StatusOK`. -/
def StatusOK : Int := 200

/-- Config represents the application configuration (the fields used after
start-up). -/
structure Config where
  GrayscaleTolerance : Float
  ImageBaseURL : String

/-- App represents the application state; the `db` handle is the store of
the `World`. -/
structure App where
  config : Config
  verbose : Bool
  bwTagID : Int

/-- Photo represents a photo record from the database (field `Type` is
spelled `Type_`). -/
structure Photo where
  ID : String
  Type_ : String
  Checksum : String
  LargePath : String
  OriginalPath : String
  IsGrayscale : Option Bool
  Processed : Bool
  deriving DecidableEq, Repr

/-! ## The store -/

/-- A row of table `photos` (the columns the program names). -/
structure PhotoRow where
  id : String
  type : String
  checksum : String
  _dz_bw : Option Int
  created_at : Nat
  updated_at : Nat
  deriving DecidableEq, Repr

/-- A row of table `photos_tags`. -/
structure PhotoTagRow where
  tag_id : Int
  photo_id : String
  deriving DecidableEq, Repr

/-- A row of table `size_variants`. -/
structure SizeVariantRow where
  photo_id : String
  type : Int
  short_path : Option String
  deriving DecidableEq, Repr

/-- The tables of the store the pipeline reads and writes. -/
structure Store where
  photos : List PhotoRow
  photos_tags : List PhotoTagRow
  size_variants : List SizeVariantRow
  deriving DecidableEq, Repr

/-- The SQL statements the pipeline sends, with their bound parameters. -/
inductive Stmt where
  | selectPhotos (tagID : Int)
  | updatePhoto (bwValue : Int) (photoID : String)
  | insertIgnorePhotoTag (tagID : Int) (photoID : String)
  deriving DecidableEq, Repr

/-- An external call, as recorded in the ghost trace. -/
inductive Event where
  | httpGet (url : String)
  | dbQuery (stmt : Stmt)
  | dbExec (stmt : Stmt)
  | processPhoto (photoID : String)
  | sleep (ms : Nat)
  deriving DecidableEq, Repr

/-- The answers of the outside world.  `httpGet t url` is the outcome of
the request issued at clock `t`; `dbErr t stmt` is the connection or server
failure (if any) of the statement issued at clock `t`; `rowsDelivered t` is
`some k` when the result set of the query issued at clock `t` breaks off
after `k` rows (`rows.Next` then returns false and the error stays in
`rows.Err()`), and `none` when it is delivered to the end; `scanErr t i` is
the failure (if any) of `rows.Scan` on the row with index `i` of that result
set; the decoders and the classifier are functions of their arguments. -/
structure Env where
  httpGet : Nat → String → Except Error Response
  imageDecode : List UInt8 → Except Error (Image × String)
  webpDecode : List UInt8 → Except Error Image
  IsGrayscale : Image → Float → Except Error Bool
  dbErr : Nat → Stmt → Option Error
  rowsDelivered : Nat → Option Nat
  scanErr : Nat → Nat → Option Error

/-- The state threaded through the program. -/
structure World where
  db : Store
  clock : Nat
  trace : List Event

/-- Record an external call and advance the clock. -/
def World.emit (w : World) (ev : Event) : World :=
  { w with clock := w.clock + 1, trace := w.trace ++ [ev] }

/-- Record a ghost marker; the clock stands still. -/
def World.mark (w : World) (ev : Event) : World :=
  { w with trace := w.trace ++ [ev] }

/-! ## SQL semantics -/

/-- The rows a `LEFT JOIN` contributes for one left row: the matches, or a
single all-NULL row when there is none. -/
def leftJoin {α : Type} (matches_ : List α) : List (Option α) :=
  match matches_ with
  | [] => [none]
  | _ :: _ => matches_.map some

/-- The predicate `s LIKE '%pat%'` for a pattern without wildcards of its
own: `pat` occurs in `s` (compared character by character). -/
def likeContains (s pat : String) : Bool :=
  decide (pat.data <:+: s.data)

/-- One row of the joined relation of the query in `getPhotosToProcess`. -/
structure JoinedRow where
  p : PhotoRow
  pt : Option PhotoTagRow
  sv_large : Option SizeVariantRow
  sv_original : Option SizeVariantRow
  deriving DecidableEq, Repr

/-- The `FROM photos p LEFT JOIN ... LEFT JOIN ... LEFT JOIN ...` part. -/
def joinedRows (db : Store) (tagID : Int) : List JoinedRow :=
  db.photos.flatMap fun p =>
    (leftJoin (db.photos_tags.filter fun pt =>
        decide (p.id = pt.photo_id) && decide (pt.tag_id = tagID))).flatMap fun pt =>
    (leftJoin (db.size_variants.filter fun sv =>
        decide (p.id = sv.photo_id) && decide (sv.type = 2))).flatMap fun svl =>
    (leftJoin (db.size_variants.filter fun sv =>
        decide (p.id = sv.photo_id) && decide (sv.type = 0))).map fun svo =>
      { p := p, pt := pt, sv_large := svl, sv_original := svo }

/-- The `WHERE` clause: `pt.photo_id IS NULL AND p._dz_bw IS NULL AND p.type
NOT LIKE '%video%' AND p.type NOT LIKE '%raw%'`. -/
def whereClause (r : JoinedRow) : Bool :=
  (r.pt.map fun x => x.photo_id).isNone
    && r.p._dz_bw.isNone
    && !(likeContains r.p.type "video")
    && !(likeContains r.p.type "raw")

/-- The five selected columns of one result row. -/
structure ResultRow where
  id : String
  type : String
  checksum : String
  large_path : Option String
  original_path : Option String
  deriving DecidableEq, Repr

/-- The `SELECT` list. -/
def selectColumns (r : JoinedRow) : ResultRow :=
  { id := r.p.id, type := r.p.type, checksum := r.p.checksum,
    large_path := r.sv_large.bind fun sv => sv.short_path,
    original_path := r.sv_original.bind fun sv => sv.short_path }

/-- The whole query: join, filter, `ORDER BY p.created_at ASC` (ties keep
the join order), `LIMIT 100`, projection. -/
def selectPhotosToProcess (db : Store) (tagID : Int) : List ResultRow :=
  ((((joinedRows db tagID).filter whereClause).insertionSort
      fun a b => a.p.created_at ≤ b.p.created_at).take 100).map selectColumns

/-- The statement `UPDATE photos SET _dz_bw = ?, updated_at = NOW() WHERE
id = ?`. -/
def sqlUpdatePhoto (db : Store) (bwValue : Int) (photoID : String) (now : Nat) : Store :=
  { db with photos := db.photos.map fun r =>
      if r.id = photoID then { r with _dz_bw := some bwValue, updated_at := now } else r }

/-- Modelled from the spec: the declaration of table `photos_tags` is not in
the program; the spec gives it as "(photo identifier, tag identifier) pair,
unique".  `INSERT IGNORE INTO photos_tags (tag_id, photo_id) VALUES (?, ?)`
therefore adds the row unless a row with this pair is present, in which case
the duplicate-key error is downgraded and nothing changes. -/
def sqlInsertIgnorePhotoTag (db : Store) (tagID : Int) (photoID : String) : Store :=
  if db.photos_tags.any (fun pt => decide (pt.tag_id = tagID) && decide (pt.photo_id = photoID))
  then db
  else { db with photos_tags := db.photos_tags ++ [{ tag_id := tagID, photo_id := photoID }] }

/-! ## The program -/

/-- The body of the `rows.Next` loop of `getPhotosToProcess` on a row that
scans: the `Photo` built from it; a NULL path leaves the zero value `""`. -/
def scanPhoto (r : ResultRow) : Photo :=
  { ID := r.id, Type_ := r.type, Checksum := r.checksum,
    LargePath := match r.large_path with
      | some s => s
      | none => "",
    OriginalPath := match r.original_path with
      | some s => s
      | none => "",
    IsGrayscale := none, Processed := false }

/-- The rows that `rows.Next` hands out for the query issued at clock `t`:
all rows of the result, or the first `k` when the result set breaks off. -/
def deliveredRows (env : Env) (t : Nat) (rows : List ResultRow) : List ResultRow :=
  match env.rowsDelivered t with
  | some k => rows.take k
  | none => rows

/-- The loop `for rows.Next()` of `getPhotosToProcess` over the delivered
rows, with the index of the next row and the slice `photos` as arguments: a
failed `rows.Scan` returns at once, otherwise the photo is appended.  After
the loop the slice is returned with a nil error; `rows.Err()` is not
consulted. -/
def scanRows (env : Env) (t : Nat) : List ResultRow → Nat → List Photo →
    Except Error (List Photo)
  | [], _, photos => Except.ok photos
  | r :: rest, i, photos =>
    match env.scanErr t i with
    | some err => Except.error (Error.wrapError "failed to scan photo: " err)
    | none => scanRows env t rest (i + 1) (photos ++ [scanPhoto r])

/-- getPhotosToProcess retrieves photos that need processing. -/
def getPhotosToProcess (app : App) (env : Env) (w : World) :
    Except Error (List Photo) × World :=
  let stmt := Stmt.selectPhotos app.bwTagID
  let w1 := w.emit (Event.dbQuery stmt)
  match env.dbErr w.clock stmt with
  | some err => (Except.error (Error.wrapError "failed to query photos: " err), w1)
  | none =>
    (scanRows env w.clock
      (deliveredRows env w.clock (selectPhotosToProcess w.db app.bwTagID)) 0 [], w1)

/-- The `for _, path := range paths` loop of `downloadAndAnalyzeImage`, with
the variable `lastErr` (nil at the start) as an argument. -/
def downloadLoop (app : App) (env : Env) :
    List String → Option Error → World → Except Error Image × World
  | [], lastErr, w =>
    (Except.error
      (Errorf_w "failed to download any image variant, last error: " lastErr), w)
  | path :: rest, _, w =>
    let url := app.config.ImageBaseURL ++ path
    let w1 := w.emit (Event.httpGet url)
    match env.httpGet w.clock url with
    | Except.error err => downloadLoop app env rest (some err) w1
    | Except.ok resp =>
      if resp.StatusCode ≠ StatusOK then
        downloadLoop app env rest
          (some (Error.errorString ("HTTP " ++ toString resp.StatusCode))) w1
      else
        match resp.Body with
        | Except.error err => downloadLoop app env rest (some err) w1
        | Except.ok data =>
          match env.imageDecode data with
          | Except.ok (img, _) => (Except.ok img, w1)
          | Except.error _ =>
            match env.webpDecode data with
            | Except.error err =>
              downloadLoop app env rest
                (some (Error.wrapError
                  "failed to decode image (tried standard formats and WebP): " err)) w1
            | Except.ok img => (Except.ok img, w1)

/-- downloadAndAnalyzeImage downloads image data and decodes it. -/
def downloadAndAnalyzeImage (app : App) (env : Env) (photo : Photo) (w : World) :
    Except Error Image × World :=
  let paths : List String := []
  let paths := if photo.LargePath ≠ "" then paths ++ [photo.LargePath] else paths
  let paths := if photo.OriginalPath ≠ "" then paths ++ [photo.OriginalPath] else paths
  downloadLoop app env paths none w

/-- updatePhotoProcessing updates the photo record with processing results. -/
def updatePhotoProcessing (app : App) (env : Env) (photoID : String) (isGrayscale : Bool)
    (w : World) : Except Error Unit × World :=
  let _ := app
  let bwValue : Int := if isGrayscale then 1 else 0
  let stmt := Stmt.updatePhoto bwValue photoID
  let w1 := w.emit (Event.dbExec stmt)
  match env.dbErr w.clock stmt with
  | some err => (Except.error err, w1)
  | none => (Except.ok (), { w1 with db := sqlUpdatePhoto w.db bwValue photoID w.clock })

/-- applyBWTag applies the Black & White tag to a photo. -/
def applyBWTag (app : App) (env : Env) (photoID : String) (w : World) :
    Except Error Unit × World :=
  let stmt := Stmt.insertIgnorePhotoTag app.bwTagID photoID
  let w1 := w.emit (Event.dbExec stmt)
  match env.dbErr w.clock stmt with
  | some err => (Except.error err, w1)
  | none => (Except.ok (), { w1 with db := sqlInsertIgnorePhotoTag w.db app.bwTagID photoID })

/-- processPhoto handles individual photo processing.  The ghost marker
`Event.processPhoto` records the call. -/
def processPhoto (app : App) (env : Env) (photo : Photo) (w : World) :
    Except Error Unit × World :=
  let w0 := w.mark (Event.processPhoto photo.ID)
  match downloadAndAnalyzeImage app env photo w0 with
  | (Except.error err, w1) =>
    (Except.error (Error.wrapError "failed to download/analyze image: " err), w1)
  | (Except.ok img, w1) =>
    match env.IsGrayscale img app.config.GrayscaleTolerance with
    | Except.error err =>
      (Except.error (Error.wrapError "failed to analyze grayscale: " err), w1)
    | Except.ok isGrayscale =>
      match updatePhotoProcessing app env photo.ID isGrayscale w1 with
      | (Except.error err, w2) =>
        (Except.error (Error.wrapError "failed to update photo: " err), w2)
      | (Except.ok _, w2) =>
        if isGrayscale then
          match applyBWTag app env photo.ID w2 with
          | (_, w3) => (Except.ok (), w3)
        else (Except.ok (), w2)

/-- The inner loop `for _, photo := range photos` of `processPhotos`: a
failed photo is logged and the loop continues. -/
def processPage (app : App) (env : Env) : List Photo → World → World
  | [], w => w
  | photo :: rest, w =>
    match processPhoto app env photo w with
    | (Except.error _, w1) => processPage app env rest w1
    | (Except.ok _, w1) => processPage app env rest w1

/-- processPhotos processes all photos that need grayscale detection.  The
outer `for` has no bound in the program; `fuel` bounds the number of
iterations here, and `none` means that the fuel ran out with the loop still
running. -/
def processPhotos (app : App) (env : Env) : Nat → World → Option (Except Error Unit) × World
  | 0, w => (none, w)
  | fuel + 1, w =>
    match getPhotosToProcess app env w with
    | (Except.error err, w1) =>
      (some (Except.error (Error.wrapError "failed to get photos to process: " err)), w1)
    | (Except.ok photos, w1) =>
      if photos.length = 0 then (some (Except.ok ()), w1)
      else
        let w2 := processPage app env photos w1
        let w3 := w2.emit (Event.sleep 100)
        processPhotos app env fuel w3

/-! ## Specification-side definitions -/

/-- The candidate sources of a photo in the order of preference: the large
rendition if it has one, then the original if it has one. -/
def sourcePaths (photo : Photo) : List String :=
  (if photo.LargePath = "" then [] else [photo.LargePath]) ++
    (if photo.OriginalPath = "" then [] else [photo.OriginalPath])

/-- Decoding with the standard decoder and, failing that, with the WebP
decoder. -/
def decodeBytes (env : Env) (data : List UInt8) : Except Error Image :=
  match env.imageDecode data with
  | Except.ok (img, _) => Except.ok img
  | Except.error _ =>
    match env.webpDecode data with
    | Except.ok img => Except.ok img
    | Except.error err =>
      Except.error
        (Error.wrapError "failed to decode image (tried standard formats and WebP): " err)

/-- What the source `path`, requested at clock `t`, yields: its image when
the fetch answers with status 200, the body is read and the bytes decode;
otherwise the error of the step that failed. -/
def sourceOutcome (app : App) (env : Env) (t : Nat) (path : String) : Except Error Image :=
  match env.httpGet t (app.config.ImageBaseURL ++ path) with
  | Except.error err => Except.error err
  | Except.ok resp =>
    if resp.StatusCode = 200 then
      match resp.Body with
      | Except.error err => Except.error err
      | Except.ok data => decodeBytes env data
    else Except.error (Error.errorString ("HTTP " ++ toString resp.StatusCode))

/-- The image of a source, if it yields one. -/
def sourceImage (app : App) (env : Env) (t : Nat) (path : String) : Option Image :=
  match sourceOutcome app env t path with
  | Except.ok img => some img
  | Except.error _ => none

/-- The number of sources of `paths` that are requested from clock `t` on:
up to and including the first that yields an image. -/
def attempts (app : App) (env : Env) : Nat → List String → Nat
  | _, [] => 0
  | t, path :: rest =>
    match sourceOutcome app env t path with
    | Except.ok _ => 1
    | Except.error _ => attempts app env (t + 1) rest + 1

/-- The events a world has recorded beyond those of an earlier world. -/
def newEvents (w w1 : World) : List Event :=
  w1.trace.drop w.trace.length

/-- The photo ids handed to `processPhoto`, in order of the calls. -/
def dispatched (evs : List Event) : List String :=
  evs.filterMap fun ev =>
    match ev with
    | Event.processPhoto photoID => some photoID
    | _ => none

/-- The image of the `i`-th candidate source of `photo` when the sources
are requested one after the other from world `w` on (`none` when the photo
has no `i`-th source or the source yields no image). -/
def sourceAt (app : App) (env : Env) (photo : Photo) (w : World) (i : Nat) : Option Image :=
  (sourcePaths photo)[i]?.bind (sourceImage app env (w.clock + i))

/-- The requests for the first `k` candidate sources of `photo`, in order. -/
def requests (app : App) (photo : Photo) (k : Nat) : List Event :=
  ((sourcePaths photo).take k).map fun path => Event.httpGet (app.config.ImageBaseURL ++ path)

/-- The world in which `processPhoto` finds itself after the acquisition
step, started from `w`: the store is untouched, the clock has advanced by
the number of sources requested, the trace has the call marker and the
requests. -/
def afterDownload (app : App) (env : Env) (photo : Photo) (w : World) : World :=
  { db := w.db,
    clock := w.clock + attempts app env w.clock (sourcePaths photo),
    trace := w.trace ++ Event.processPhoto photo.ID ::
      requests app photo (attempts app env w.clock (sourcePaths photo)) }

/-- The value `updatePhotoProcessing` stores for a classification. -/
def bwValueOf (isGrayscale : Bool) : Int := if isGrayscale then 1 else 0

/-- The relation between table `photos` before and after the flag of photo
`photoID` has been written with value `v`: the same rows in the same order,
the rows of that photo now carry flag `v`, every other row is unchanged. -/
def FlagWritten (photoID : String) (v : Int) (before after : List PhotoRow) : Prop :=
  List.Forall₂
    (fun r r1 => r1.id = r.id ∧ (r.id = photoID → r1._dz_bw = some v) ∧ (r.id ≠ photoID → r1 = r))
    before after

/-- The statements `processPhoto` sends to the store for `photo`, started
from `w`: none when acquisition or classification fails, the flag write
otherwise, followed by the tag insert when the flag write went through and
the photo is grayscale. -/
def storeStatements (app : App) (env : Env) (photo : Photo) (w : World) : List Event :=
  match (downloadAndAnalyzeImage app env photo w).1 with
  | Except.error _ => []
  | Except.ok img =>
    match env.IsGrayscale img app.config.GrayscaleTolerance with
    | Except.error _ => []
    | Except.ok b =>
      match env.dbErr (afterDownload app env photo w).clock
          (Stmt.updatePhoto (bwValueOf b) photo.ID) with
      | some _ => [Event.dbExec (Stmt.updatePhoto (bwValueOf b) photo.ID)]
      | none =>
        if b = true then
          [Event.dbExec (Stmt.updatePhoto 1 photo.ID),
           Event.dbExec (Stmt.insertIgnorePhotoTag app.bwTagID photo.ID)]
        else [Event.dbExec (Stmt.updatePhoto 0 photo.ID)]

/-- The flag of photo `photoID` is set: no row of that photo has a NULL
`_dz_bw`. -/
def FlagSet (db : Store) (photoID : String) : Prop :=
  ∀ r ∈ db.photos, r.id = photoID → r._dz_bw ≠ none

/-- One write of the pipeline to the store: a flag write or a tag insert,
with any parameters. -/
inductive StoreStep : Store → Store → Prop where
  | update (db : Store) (bwValue : Int) (photoID : String) (now : Nat) :
      StoreStep db (sqlUpdatePhoto db bwValue photoID now)
  | insertIgnore (db : Store) (tagID : Int) (photoID : String) :
      StoreStep db (sqlInsertIgnorePhotoTag db tagID photoID)

/-- A store that results from an earlier one by writes of the pipeline. -/
def StoreLater (db db1 : Store) : Prop :=
  Relation.ReflTransGen StoreStep db db1

/-- The eligibility of a photo row, in the words of the spec: no association
to the Black & White tag, classification unknown, media kind neither video
nor raw. -/
def eligible (db : Store) (tagID : Int) (r : PhotoRow) : Bool :=
  (db.photos_tags.all fun pt => !(decide (pt.photo_id = r.id) && decide (pt.tag_id = tagID)))
    && r._dz_bw.isNone
    && !(likeContains r.type "video")
    && !(likeContains r.type "raw")

/-- The number of eligible photo rows. -/
def eligibleCount (db : Store) (tagID : Int) : Nat :=
  db.photos.countP (eligible db tagID)

/-- Every photo the selection could deliver from this store, were there no
`LIMIT`. -/
def candidates (db : Store) (tagID : Int) : List Photo :=
  ((joinedRows db tagID).filter whereClause).map fun jr => scanPhoto (selectColumns jr)

/-- What every later store has in common with an earlier one: table `photos`
is the old one with some rows rewritten, where a rewritten row keeps its id
and type and a row whose flag is NULL afterwards was not rewritten at all;
no association has gone; the renditions are the same. -/
def Refines (db db1 : Store) : Prop :=
  ∃ f : PhotoRow → PhotoRow, db1.photos = db.photos.map f ∧
    (∀ r, (f r).id = r.id ∧ ((f r)._dz_bw = none → f r = r)) ∧
    (∀ pt ∈ db.photos_tags, pt ∈ db1.photos_tags) ∧
    db1.size_variants = db.size_variants

/-- Every photo of the page, dispatched in order from world `w` on, gets
through the flag write (`processPhoto` returns nil). -/
def pageSucceeds (app : App) (env : Env) : List Photo → World → Bool
  | [], _ => true
  | photo :: rest, w =>
    (match (processPhoto app env photo w).1 with
      | Except.ok _ => true
      | Except.error _ => false)
    && pageSucceeds app env rest (processPhoto app env photo w).2

/-- In the first `fuel` iterations of `processPhotos` from world `w` on,
every dispatched photo gets through the flag write (a run that ends on an
empty page or on a failed query dispatches nothing further). -/
def photosSucceed (app : App) (env : Env) : Nat → World → Bool
  | 0, _ => true
  | fuel + 1, w =>
    match getPhotosToProcess app env w with
    | (Except.error _, _) => true
    | (Except.ok photos, w1) =>
      if photos.length = 0 then true
      else
        pageSucceeds app env photos w1
          && photosSucceed app env fuel ((processPage app env photos w1).emit (Event.sleep 100))

/-- Acquisition or classification of `photo` fails when attempted from
world `w`. -/
def FailsBeforeWrite (app : App) (env : Env) (photo : Photo) (w : World) : Prop :=
  (∃ e, (downloadAndAnalyzeImage app env photo w).1 = Except.error e) ∨
    (∃ img e, (downloadAndAnalyzeImage app env photo w).1 = Except.ok img ∧
      env.IsGrayscale img app.config.GrayscaleTolerance = Except.error e)

/-- Photo `photoID` has an eligible row in the store. -/
def StillEligible (db : Store) (tagID : Int) (photoID : String) : Prop :=
  ∃ r, r ∈ db.photos ∧ r.id = photoID ∧ eligible db tagID r = true

/-! ## Concrete scenarios -/

/-- An application context: base URL `http://img/`, tag id 7. -/
def exApp : App :=
  { config := { GrayscaleTolerance := 0.1, ImageBaseURL := "http://img/" },
    verbose := false, bwTagID := 7 }

/-- A photo with both renditions. -/
def exPhotoA : Photo :=
  { ID := "a", Type_ := "image/jpeg", Checksum := "c1", LargePath := "l/a.jpg",
    OriginalPath := "o/a.jpg", IsGrayscale := none, Processed := false }

/-- A photo without any rendition. -/
def exPhotoNoSource : Photo :=
  { ID := "n", Type_ := "image/jpeg", Checksum := "c0", LargePath := "",
    OriginalPath := "", IsGrayscale := none, Processed := false }

/-- An environment in which the large rendition of photo `a` answers 404,
every other request answers 200 with a one-byte body that the standard
decoder accepts, the classifier says grayscale, the store never fails and
every result set is delivered to the end. -/
def exEnv : Env :=
  { httpGet := fun _ url =>
      if url = "http://img/l/a.jpg" then Except.ok { StatusCode := 404, Body := Except.ok [] }
      else Except.ok { StatusCode := 200, Body := Except.ok [1] },
    imageDecode := fun data =>
      if data = [1] then Except.ok ({ handle := 1 }, "jpeg")
      else Except.error (Error.errorString "image: unknown format"),
    webpDecode := fun _ => Except.error (Error.errorString "webp: invalid format"),
    IsGrayscale := fun _ _ => Except.ok true,
    dbErr := fun _ _ => none,
    rowsDelivered := fun _ => none,
    scanErr := fun _ _ => none }

/-- A store with three photos, one of them a video, and no tag yet. -/
def exStore : Store :=
  { photos :=
      [ { id := "a", type := "image/jpeg", checksum := "c1", _dz_bw := none,
          created_at := 5, updated_at := 0 },
        { id := "b", type := "video/mp4", checksum := "c2", _dz_bw := none,
          created_at := 1, updated_at := 0 },
        { id := "c", type := "image/png", checksum := "c3", _dz_bw := none,
          created_at := 2, updated_at := 0 } ],
    photos_tags := [],
    size_variants :=
      [ { photo_id := "a", type := 2, short_path := some "l/a.jpg" },
        { photo_id := "a", type := 0, short_path := some "o/a.jpg" },
        { photo_id := "c", type := 0, short_path := some "o/c.png" } ] }

/-- The world at the start of a run on `exStore`. -/
def exWorld : World := { db := exStore, clock := 0, trace := [] }

/-- A photo whose only rendition is the original of photo `c`. -/
def exPhotoC : Photo :=
  { ID := "c", Type_ := "image/png", Checksum := "c3", LargePath := "",
    OriginalPath := "o/c.png", IsGrayscale := none, Processed := false }

/-- As `exEnv`, but every tag insert fails. -/
def exEnvTagFails : Env :=
  { exEnv with
    dbErr := fun _ stmt =>
      match stmt with
      | Stmt.insertIgnorePhotoTag _ _ => some (Error.errorString "invalid connection")
      | _ => none }

/-- As `exEnv`, but every flag write fails. -/
def exEnvUpdateFails : Env :=
  { exEnv with
    dbErr := fun _ stmt =>
      match stmt with
      | Stmt.updatePhoto _ _ => some (Error.errorString "invalid connection")
      | _ => none }

/-- As `exEnv`, but every request answers 500. -/
def exEnvFetchFails : Env :=
  { exEnv with
    httpGet := fun _ _ => Except.ok { StatusCode := 500, Body := Except.ok [] } }

/-- As `exEnv`, but the classifier fails on every image. -/
def exEnvClassifierFails : Env :=
  { exEnv with
    IsGrayscale := fun _ _ => Except.error (Error.errorString "image has no pixels") }

/-- As `exEnv`, but the selection query fails. -/
def exEnvQueryFails : Env :=
  { exEnv with
    dbErr := fun _ stmt =>
      match stmt with
      | Stmt.selectPhotos _ => some (Error.errorString "invalid connection")
      | _ => none }

/-- As `exEnv`, but every result set breaks off before its first row. -/
def exEnvRowsBreak : Env :=
  { exEnv with rowsDelivered := fun _ => some 0 }

/-- As `exEnv`, but the original rendition of photo `c` answers 500. -/
def exEnvOriginalCFails : Env :=
  { exEnv with
    httpGet := fun _ url =>
      if url = "http://img/o/c.png" then Except.ok { StatusCode := 500, Body := Except.ok [] }
      else if url = "http://img/l/a.jpg" then
        Except.ok { StatusCode := 404, Body := Except.ok [] }
      else Except.ok { StatusCode := 200, Body := Except.ok [1] } }

/-! ## Image acquisition -/

theorem sourcePaths_eq (app : App) (env : Env) (photo : Photo) (w : World) :
    downloadAndAnalyzeImage app env photo w =
      downloadLoop app env (sourcePaths photo) none w := by
  unfold downloadAndAnalyzeImage sourcePaths
  by_cases h1 : photo.LargePath = "" <;> by_cases h2 : photo.OriginalPath = "" <;>
    simp [h1, h2]

theorem downloadLoop_cons (app : App) (env : Env) (path : String) (rest : List String)
    (lastErr : Option Error) (w : World) :
    downloadLoop app env (path :: rest) lastErr w =
      match sourceOutcome app env w.clock path with
      | Except.ok img =>
        (Except.ok img, w.emit (Event.httpGet (app.config.ImageBaseURL ++ path)))
      | Except.error err =>
        downloadLoop app env rest (some err)
          (w.emit (Event.httpGet (app.config.ImageBaseURL ++ path))) := by
  rw [downloadLoop]
  unfold sourceOutcome
  cases h : env.httpGet w.clock (app.config.ImageBaseURL ++ path) with
  | error err => rfl
  | ok resp =>
    simp only []
    by_cases hs : resp.StatusCode = 200
    · have hs2 : ¬ (resp.StatusCode ≠ StatusOK) := by simp [StatusOK, hs]
      rw [if_neg hs2, if_pos hs]
      cases hb : resp.Body with
      | error err => rfl
      | ok data =>
        simp only []
        unfold decodeBytes
        cases hd : env.imageDecode data with
        | ok r => rfl
        | error e1 =>
          simp only []
          cases hw : env.webpDecode data with
          | ok img => rfl
          | error e2 => rfl
    · have hs2 : resp.StatusCode ≠ StatusOK := by simpa [StatusOK] using hs
      rw [if_pos hs2, if_neg hs]

theorem downloadLoop_world (app : App) (env : Env) (paths : List String) :
    ∀ (lastErr : Option Error) (w : World),
      (downloadLoop app env paths lastErr w).2 =
        { db := w.db, clock := w.clock + attempts app env w.clock paths,
          trace := w.trace ++ (paths.take (attempts app env w.clock paths)).map
            fun path => Event.httpGet (app.config.ImageBaseURL ++ path) } := by
  induction paths with
  | nil => intro lastErr w; simp [downloadLoop, attempts]
  | cons path rest ih =>
    intro lastErr w
    rw [downloadLoop_cons]
    cases h : sourceOutcome app env w.clock path with
    | ok img => simp [attempts, h, World.emit]
    | error err =>
      simp only [attempts, h]
      rw [ih]
      simp [World.emit, List.take_succ_cons, Nat.add_assoc, Nat.add_comm 1]

theorem downloadLoop_ok_iff (app : App) (env : Env) (paths : List String) :
    ∀ (lastErr : Option Error) (w : World) (img : Image),
      (downloadLoop app env paths lastErr w).1 = Except.ok img ↔
        ∃ i, paths[i]?.bind (sourceImage app env (w.clock + i)) = some img ∧
          ∀ j, j < i → paths[j]?.bind (sourceImage app env (w.clock + j)) = none := by
  induction paths with
  | nil => intro lastErr w img; simp [downloadLoop]
  | cons path rest ih =>
    intro lastErr w img
    rw [downloadLoop_cons]
    cases h : sourceOutcome app env w.clock path with
    | ok img0 =>
      have hs : sourceImage app env w.clock path = some img0 := by simp [sourceImage, h]
      constructor
      · intro heq
        have : img0 = img := by simpa using heq
        subst this
        exact ⟨0, by simpa using hs, by intro j hj; omega⟩
      · rintro ⟨i, hi, hlt⟩
        cases i with
        | zero =>
          have : img0 = img := by simpa [hs] using hi
          simp [this]
        | succ i =>
          have := hlt 0 (by omega)
          simp [hs] at this
    | error err =>
      have hs : sourceImage app env w.clock path = none := by simp [sourceImage, h]
      simp only []
      rw [ih]
      constructor
      · rintro ⟨i, hi, hlt⟩
        refine ⟨i + 1, ?_, ?_⟩
        · simpa [World.emit, Nat.add_assoc, Nat.add_comm 1 i] using hi
        · intro j hj
          cases j with
          | zero => simpa using hs
          | succ j =>
            have := hlt j (by omega)
            simpa [World.emit, Nat.add_assoc, Nat.add_comm 1 j] using this
      · rintro ⟨i, hi, hlt⟩
        cases i with
        | zero => simp [hs] at hi
        | succ i =>
          refine ⟨i, ?_, ?_⟩
          · simpa [World.emit, Nat.add_assoc, Nat.add_comm 1 i] using hi
          · intro j hj
            have := hlt (j + 1) (by omega)
            simpa [World.emit, Nat.add_assoc, Nat.add_comm 1 j] using this

theorem downloadLoop_attempts_ok (app : App) (env : Env) (paths : List String) :
    ∀ (t i : Nat) (img : Image),
      paths[i]?.bind (sourceImage app env (t + i)) = some img →
      (∀ j, j < i → paths[j]?.bind (sourceImage app env (t + j)) = none) →
      attempts app env t paths = i + 1 := by
  induction paths with
  | nil => intro t i img hi; simp at hi
  | cons path rest ih =>
    intro t i img hi hlt
    cases i with
    | zero =>
      have hs : sourceImage app env t path = some img := by simpa using hi
      unfold sourceImage at hs
      cases h : sourceOutcome app env t path with
      | ok img0 => simp [attempts, h]
      | error err => simp [h] at hs
    | succ i =>
      have h0 := hlt 0 (by omega)
      have hs : sourceImage app env t path = none := by simpa using h0
      unfold sourceImage at hs
      cases h : sourceOutcome app env t path with
      | ok img0 => simp [h] at hs
      | error err =>
        simp only [attempts, h]
        have := ih (t + 1) i img (by simpa [Nat.add_assoc, Nat.add_comm 1 i] using hi)
          (by
            intro j hj
            have := hlt (j + 1) (by omega)
            simpa [Nat.add_assoc, Nat.add_comm 1 j] using this)
        omega

theorem downloadLoop_attempts_none (app : App) (env : Env) (paths : List String) :
    ∀ (t : Nat),
      (∀ j, j < paths.length → paths[j]?.bind (sourceImage app env (t + j)) = none) →
      attempts app env t paths = paths.length := by
  induction paths with
  | nil => intro t _; simp [attempts]
  | cons path rest ih =>
    intro t hlt
    have h0 := hlt 0 (by simp)
    have hs : sourceImage app env t path = none := by simpa using h0
    unfold sourceImage at hs
    cases h : sourceOutcome app env t path with
    | ok img0 => simp [h] at hs
    | error err =>
      simp only [attempts, h, List.length_cons]
      have := ih (t + 1) (by
        intro j hj
        have := hlt (j + 1) (by simpa using hj)
        simpa [Nat.add_assoc, Nat.add_comm 1 j] using this)
      omega

theorem downloadLoop_error_iff (app : App) (env : Env) (paths : List String)
    (lastErr : Option Error) (w : World) :
    (∃ e, (downloadLoop app env paths lastErr w).1 = Except.error e) ↔
      ∀ j, j < paths.length → paths[j]?.bind (sourceImage app env (w.clock + j)) = none := by
  constructor
  · rintro ⟨e, he⟩
    by_contra hne
    push_neg at hne
    have hex : ∃ j, j < paths.length ∧
        paths[j]?.bind (sourceImage app env (w.clock + j)) ≠ none := by
      obtain ⟨j, hj, hj2⟩ := hne
      exact ⟨j, hj, hj2⟩
    classical
    let i := Nat.find hex
    have hi := Nat.find_spec hex
    obtain ⟨img, himg⟩ := Option.ne_none_iff_exists'.mp hi.2
    have hok := (downloadLoop_ok_iff app env paths lastErr w img).mpr
      ⟨Nat.find hex, himg, by
        intro j hj
        have := Nat.find_min hex hj
        by_contra hcon
        exact this ⟨by omega, hcon⟩⟩
    rw [he] at hok
    cases hok
  · intro hall
    cases hres : (downloadLoop app env paths lastErr w).1 with
    | error e => exact ⟨e, rfl⟩
    | ok img =>
      obtain ⟨i, hi, _⟩ := (downloadLoop_ok_iff app env paths lastErr w img).mp hres
      have hlen : i < paths.length := by
        by_contra hcon
        have : paths[i]? = none := by simp; omega
        simp [this] at hi
      rw [hall i hlen] at hi
      cases hi

/-- C1: `downloadAndAnalyzeImage` requests the candidate sources in the order
large, original (each only if its path is non-empty) and returns the image of
the first source whose fetch answers 200, whose body is read and whose bytes
decode; it has then requested exactly the sources up to that one.  It returns
an error exactly when no candidate source yields an image, after requesting
all of them.  In particular, when both renditions exist, the large one yields
no image and the original does, the result is the original's image. -/
theorem downloadAndAnalyzeImage_first_decodable_source (app : App) (env : Env)
    (photo : Photo) (w : World) :
    (∀ img, (downloadAndAnalyzeImage app env photo w).1 = Except.ok img ↔
      ∃ i, sourceAt app env photo w i = some img ∧
        ∀ j, j < i → sourceAt app env photo w j = none) ∧
    (∀ i img, sourceAt app env photo w i = some img →
      (∀ j, j < i → sourceAt app env photo w j = none) →
      (downloadAndAnalyzeImage app env photo w).2.trace =
        w.trace ++ requests app photo (i + 1)) ∧
    ((∃ e, (downloadAndAnalyzeImage app env photo w).1 = Except.error e) ↔
      ∀ j, j < (sourcePaths photo).length → sourceAt app env photo w j = none) ∧
    ((∀ j, j < (sourcePaths photo).length → sourceAt app env photo w j = none) →
      (downloadAndAnalyzeImage app env photo w).2.trace =
        w.trace ++ requests app photo (sourcePaths photo).length) ∧
    (∀ img, photo.LargePath ≠ "" → photo.OriginalPath ≠ "" →
      sourceImage app env w.clock photo.LargePath = none →
      sourceImage app env (w.clock + 1) photo.OriginalPath = some img →
      (downloadAndAnalyzeImage app env photo w).1 = Except.ok img) := by
  rw [sourcePaths_eq]
  refine ⟨?_, ?_, ?_, ?_, ?_⟩
  · intro img
    exact downloadLoop_ok_iff app env (sourcePaths photo) none w img
  · intro i img hi hlt
    rw [downloadLoop_world]
    rw [downloadLoop_attempts_ok app env (sourcePaths photo) w.clock i img hi hlt]
    rfl
  · exact downloadLoop_error_iff app env (sourcePaths photo) none w
  · intro hall
    rw [downloadLoop_world]
    rw [downloadLoop_attempts_none app env (sourcePaths photo) w.clock hall]
    rfl
  · intro img hl ho hlarge horig
    apply (downloadLoop_ok_iff app env (sourcePaths photo) none w img).mpr
    refine ⟨1, ?_, ?_⟩
    · simp [sourcePaths, hl, ho, horig]
    · intro j hj
      have : j = 0 := by omega
      subst this
      simp [sourcePaths, hl, hlarge]

/-- Witness for C1: the large rendition of photo `a` answers 404, the original
answers 200 and decodes; the image returned is the original's. -/
theorem downloadAndAnalyzeImage_first_decodable_source_witness :
    (downloadAndAnalyzeImage exApp exEnv exPhotoA exWorld).1 = Except.ok { handle := 1 } :=
  (downloadAndAnalyzeImage_first_decodable_source exApp exEnv exPhotoA exWorld).2.2.2.2
    { handle := 1 } (by decide) (by decide) (by decide) (by decide)

/-- C8 (the code at the failing input): for a photo without any rendition
path the loop body never runs, `lastErr` is still nil at the final
`fmt.Errorf`, and the error returned wraps nothing: `errors.Unwrap` of it is
nil. -/
theorem downloadAndAnalyzeImage_no_source_wraps_nil (app : App) (env : Env) (w : World) :
    (downloadAndAnalyzeImage app env exPhotoNoSource w).1 =
        Except.error (Error.wrapNil "failed to download any image variant, last error: ") ∧
      Unwrap (Error.wrapNil "failed to download any image variant, last error: ") = none := by
  constructor
  · rfl
  · rfl

theorem downloadLoop_error_last (app : App) (env : Env) (last : String) (init : List String) :
    ∀ (lastErr : Option Error) (w : World) (e : Error),
      (downloadLoop app env (init ++ [last]) lastErr w).1 = Except.error e →
      ∃ e0, sourceOutcome app env (w.clock + init.length) last = Except.error e0 ∧
        e = Error.wrapError "failed to download any image variant, last error: " e0 := by
  induction init with
  | nil =>
    intro lastErr w e he
    rw [List.nil_append, downloadLoop_cons] at he
    cases h : sourceOutcome app env w.clock last with
    | ok img => rw [h] at he; cases he
    | error e0 =>
      rw [h] at he
      simp only [downloadLoop, Errorf_w] at he
      refine ⟨e0, by simpa using h, ?_⟩
      cases he
      rfl
  | cons path rest ih =>
    intro lastErr w e he
    rw [List.cons_append, downloadLoop_cons] at he
    cases h : sourceOutcome app env w.clock path with
    | ok img => rw [h] at he; cases he
    | error e0 =>
      rw [h] at he
      obtain ⟨e1, h1, h2⟩ := ih _ _ e he
      refine ⟨e1, ?_, h2⟩
      simpa [World.emit, Nat.add_assoc, Nat.add_comm 1] using h1

/-- When the photo has a source, a failed acquisition wraps the error of the
last source requested. -/
theorem downloadAndAnalyzeImage_error_wraps_last (app : App) (env : Env) (photo : Photo)
    (w : World) (e : Error) (init : List String) (last : String)
    (hp : sourcePaths photo = init ++ [last])
    (he : (downloadAndAnalyzeImage app env photo w).1 = Except.error e) :
    ∃ e0, sourceOutcome app env (w.clock + init.length) last = Except.error e0 ∧
      Unwrap e = some e0 := by
  rw [sourcePaths_eq, hp] at he
  obtain ⟨e0, h1, h2⟩ := downloadLoop_error_last app env last init none w e he
  exact ⟨e0, h1, by rw [h2]; rfl⟩

/-! ## Processing one photo -/

theorem downloadLoop_fst_congr (app : App) (env : Env) (paths : List String) :
    ∀ (l1 l2 : Option Error) (w1 w2 : World), w1.clock = w2.clock →
      (∀ (_ : paths = []), l1 = l2) →
      (downloadLoop app env paths l1 w1).1 = (downloadLoop app env paths l2 w2).1 := by
  induction paths with
  | nil =>
    intro l1 l2 w1 w2 _ hl
    simp [downloadLoop, hl rfl]
  | cons path rest ih =>
    intro l1 l2 w1 w2 hc _
    rw [downloadLoop_cons, downloadLoop_cons, hc]
    cases h : sourceOutcome app env w2.clock path with
    | ok img => rfl
    | error err =>
      simp only []
      apply ih
      · simp [World.emit, hc]
      · intro _; rfl

theorem downloadAndAnalyzeImage_mark (app : App) (env : Env) (photo : Photo) (w : World) :
    downloadAndAnalyzeImage app env photo (w.mark (Event.processPhoto photo.ID)) =
      ((downloadAndAnalyzeImage app env photo w).1, afterDownload app env photo w) := by
  apply Prod.ext
  · rw [sourcePaths_eq, sourcePaths_eq]
    apply downloadLoop_fst_congr
    · rfl
    · intro _; rfl
  · rw [sourcePaths_eq, downloadLoop_world]
    simp [World.mark, afterDownload, requests]

theorem processPhoto_eq (app : App) (env : Env) (photo : Photo) (w : World) :
    processPhoto app env photo w =
      match (downloadAndAnalyzeImage app env photo w).1 with
      | Except.error err =>
        (Except.error (Error.wrapError "failed to download/analyze image: " err),
          afterDownload app env photo w)
      | Except.ok img =>
        match env.IsGrayscale img app.config.GrayscaleTolerance with
        | Except.error err =>
          (Except.error (Error.wrapError "failed to analyze grayscale: " err),
            afterDownload app env photo w)
        | Except.ok b =>
          match env.dbErr (afterDownload app env photo w).clock
              (Stmt.updatePhoto (bwValueOf b) photo.ID) with
          | some err =>
            (Except.error (Error.wrapError "failed to update photo: " err),
              (afterDownload app env photo w).emit
                (Event.dbExec (Stmt.updatePhoto (bwValueOf b) photo.ID)))
          | none =>
            if b = true then
              (Except.ok (),
                { db :=
                    match env.dbErr ((afterDownload app env photo w).clock + 1)
                        (Stmt.insertIgnorePhotoTag app.bwTagID photo.ID) with
                    | some _ =>
                      sqlUpdatePhoto w.db 1 photo.ID (afterDownload app env photo w).clock
                    | none =>
                      sqlInsertIgnorePhotoTag
                        (sqlUpdatePhoto w.db 1 photo.ID (afterDownload app env photo w).clock)
                        app.bwTagID photo.ID,
                  clock := (afterDownload app env photo w).clock + 2,
                  trace := (afterDownload app env photo w).trace ++
                    [Event.dbExec (Stmt.updatePhoto 1 photo.ID),
                     Event.dbExec (Stmt.insertIgnorePhotoTag app.bwTagID photo.ID)] })
            else
              (Except.ok (),
                { db := sqlUpdatePhoto w.db 0 photo.ID (afterDownload app env photo w).clock,
                  clock := (afterDownload app env photo w).clock + 1,
                  trace := (afterDownload app env photo w).trace ++
                    [Event.dbExec (Stmt.updatePhoto 0 photo.ID)] }) := by
  unfold processPhoto
  simp only [downloadAndAnalyzeImage_mark]
  cases hd : (downloadAndAnalyzeImage app env photo w).1 with
  | error err => rfl
  | ok img =>
    simp only []
    cases hg : env.IsGrayscale img app.config.GrayscaleTolerance with
    | error err => rfl
    | ok b =>
      simp only []
      cases b with
      | false =>
        simp only [updatePhotoProcessing, bwValueOf]
        cases hu : env.dbErr (afterDownload app env photo w).clock (Stmt.updatePhoto 0 photo.ID) with
        | some err => simp [hu]
        | none =>
          simp only [afterDownload] at hu ⊢
          simp [hu, World.emit]
      | true =>
        simp only [updatePhotoProcessing, bwValueOf]
        cases hu : env.dbErr (afterDownload app env photo w).clock (Stmt.updatePhoto 1 photo.ID) with
        | some err => simp [hu]
        | none =>
          simp only [hu, if_true, applyBWTag, World.emit]
          cases hi : env.dbErr ((afterDownload app env photo w).clock + 1)
              (Stmt.insertIgnorePhotoTag app.bwTagID photo.ID) with
          | some err =>
            simp only [afterDownload] at hi ⊢
            simp [hi]
          | none =>
            simp only [afterDownload] at hi ⊢
            simp [hi]

theorem newEvents_of_append (w w1 : World) (evs : List Event)
    (h : w1.trace = w.trace ++ evs) : newEvents w w1 = evs := by
  simp [newEvents, h]

theorem newEvents_afterDownload (app : App) (env : Env) (photo : Photo) (w : World) :
    newEvents w (afterDownload app env photo w) =
      Event.processPhoto photo.ID ::
        requests app photo (attempts app env w.clock (sourcePaths photo)) :=
  newEvents_of_append _ _ _ rfl

theorem dbExec_not_mem_requests (app : App) (photo : Photo) (k : Nat) (stmt : Stmt) :
    Event.dbExec stmt ∉ requests app photo k := by
  intro hmem
  unfold requests at hmem
  rw [List.mem_map] at hmem
  obtain ⟨path, _, hpath⟩ := hmem
  cases hpath

/-- C2: if the acquisition fails, or the classifier returns an error on the
acquired image, `processPhoto` returns an error, leaves the store exactly as
it was and sends it no write statement; every later selection therefore sees
the photo as before. -/
theorem processPhoto_failure_writes_nothing (app : App) (env : Env) (photo : Photo)
    (w : World)
    (h : (∃ e, (downloadAndAnalyzeImage app env photo w).1 = Except.error e) ∨
      (∃ img e, (downloadAndAnalyzeImage app env photo w).1 = Except.ok img ∧
        env.IsGrayscale img app.config.GrayscaleTolerance = Except.error e)) :
    (∃ e, (processPhoto app env photo w).1 = Except.error e) ∧
    (processPhoto app env photo w).2.db = w.db ∧
    (∀ stmt, Event.dbExec stmt ∉ newEvents w (processPhoto app env photo w).2) ∧
    (∀ tagID, selectPhotosToProcess (processPhoto app env photo w).2.db tagID =
      selectPhotosToProcess w.db tagID) := by
  have key : (∃ e, (processPhoto app env photo w).1 = Except.error e) ∧
      (processPhoto app env photo w).2 = afterDownload app env photo w := by
    rw [processPhoto_eq]
    rcases h with ⟨e, he⟩ | ⟨img, e, hd, hg⟩
    · rw [he]; exact ⟨⟨_, rfl⟩, rfl⟩
    · rw [hd]; simp only []; rw [hg]; exact ⟨⟨_, rfl⟩, rfl⟩
  obtain ⟨h1, h2⟩ := key
  refine ⟨h1, ?_, ?_, ?_⟩
  · rw [h2]; rfl
  · intro stmt
    rw [h2, newEvents_afterDownload]
    simp [dbExec_not_mem_requests]
  · intro tagID
    rw [h2]; rfl

/-- Witness for C2: photo `a` is a stored, eligible photo; when every request
answers 500 its acquisition fails, and when the classifier fails on every
image its classification fails; either way `processPhoto` returns an error
and the store, with the NULL flag of `a`, is as before. -/
theorem processPhoto_failure_writes_nothing_witness :
    (∃ e, (processPhoto exApp exEnvFetchFails exPhotoA exWorld).1 = Except.error e) ∧
      (processPhoto exApp exEnvFetchFails exPhotoA exWorld).2.db = exStore ∧
      (∃ e, (processPhoto exApp exEnvClassifierFails exPhotoA exWorld).1 = Except.error e) ∧
      (processPhoto exApp exEnvClassifierFails exPhotoA exWorld).2.db = exStore :=
  have h1 := processPhoto_failure_writes_nothing exApp exEnvFetchFails exPhotoA exWorld
    (Or.inl ⟨_, rfl⟩)
  have h2 := processPhoto_failure_writes_nothing exApp exEnvClassifierFails exPhotoA exWorld
    (Or.inr ⟨{ handle := 1 }, _, rfl, rfl⟩)
  ⟨h1.1, h1.2.1, h2.1, h2.2.1⟩

theorem sqlUpdatePhoto_flagWritten (db : Store) (v : Int) (photoID : String) (now : Nat) :
    FlagWritten photoID v db.photos (sqlUpdatePhoto db v photoID now).photos := by
  unfold FlagWritten sqlUpdatePhoto
  simp only []
  rw [List.forall₂_map_right_iff, List.forall₂_same]
  intro r _
  by_cases h : r.id = photoID
  · simp [h]
  · simp [h]

theorem mem_sqlInsertIgnorePhotoTag (db : Store) (tagID : Int) (photoID : String)
    (pt : PhotoTagRow) :
    pt ∈ (sqlInsertIgnorePhotoTag db tagID photoID).photos_tags ↔
      pt ∈ db.photos_tags ∨ pt = { tag_id := tagID, photo_id := photoID } := by
  unfold sqlInsertIgnorePhotoTag
  split
  · rename_i h
    constructor
    · intro hm; exact Or.inl hm
    · rintro (hm | hm)
      · exact hm
      · rw [List.any_eq_true] at h
        obtain ⟨x, hx, hx2⟩ := h
        have : x = pt := by
          cases x
          simp at hx2
          rw [hm, hx2.1, hx2.2]
        rw [← this]; exact hx
  · simp

theorem filter_sqlInsertIgnorePhotoTag (db : Store) (tagID : Int) (photoID : String) :
    (sqlInsertIgnorePhotoTag db tagID photoID).photos_tags.filter
        (fun pt => decide (pt.photo_id ≠ photoID)) =
      db.photos_tags.filter (fun pt => decide (pt.photo_id ≠ photoID)) := by
  unfold sqlInsertIgnorePhotoTag
  split
  · rfl
  · simp

/-- C3: when the acquisition succeeds, the classifier answers `b` and the store
accepts the writes, `processPhoto` succeeds; the rows of the photo in table
`photos` then carry flag 1 if `b` and 0 otherwise, all other photo rows are
unchanged; the tag insert is sent exactly when `b` is true, and the
associations afterwards are those before plus, when `b` is true, the pair of
this photo and the Black & White tag; associations of other photos and the
renditions are unchanged. -/
theorem processPhoto_success_effect (app : App) (env : Env) (photo : Photo) (w : World)
    (img : Image) (b : Bool)
    (hd : (downloadAndAnalyzeImage app env photo w).1 = Except.ok img)
    (hg : env.IsGrayscale img app.config.GrayscaleTolerance = Except.ok b)
    (hu : env.dbErr (afterDownload app env photo w).clock
      (Stmt.updatePhoto (if b then 1 else 0) photo.ID) = none)
    (hi : b = true → env.dbErr ((afterDownload app env photo w).clock + 1)
      (Stmt.insertIgnorePhotoTag app.bwTagID photo.ID) = none) :
    (processPhoto app env photo w).1 = Except.ok () ∧
    FlagWritten photo.ID (if b then 1 else 0) w.db.photos
      (processPhoto app env photo w).2.db.photos ∧
    (∀ pt, pt ∈ (processPhoto app env photo w).2.db.photos_tags ↔
      pt ∈ w.db.photos_tags ∨
        (b = true ∧ pt = { tag_id := app.bwTagID, photo_id := photo.ID })) ∧
    (Event.dbExec (Stmt.insertIgnorePhotoTag app.bwTagID photo.ID) ∈
      newEvents w (processPhoto app env photo w).2 ↔ b = true) ∧
    ((processPhoto app env photo w).2.db.photos_tags.filter
        (fun pt => decide (pt.photo_id ≠ photo.ID)) =
      w.db.photos_tags.filter (fun pt => decide (pt.photo_id ≠ photo.ID))) ∧
    (processPhoto app env photo w).2.db.size_variants = w.db.size_variants := by
  rw [processPhoto_eq, hd]
  simp only []
  rw [hg]
  simp only []
  cases b with
  | false =>
    have hu2 : env.dbErr (afterDownload app env photo w).clock
        (Stmt.updatePhoto (bwValueOf false) photo.ID) = none := by simpa [bwValueOf] using hu
    rw [hu2]
    refine ⟨rfl, ?_, ?_, ?_, ?_, ?_⟩
    · simpa using sqlUpdatePhoto_flagWritten w.db 0 photo.ID _
    · intro pt; simp [sqlUpdatePhoto]
    · rw [newEvents_of_append w _ (Event.processPhoto photo.ID ::
        (requests app photo (attempts app env w.clock (sourcePaths photo)) ++
          [Event.dbExec (Stmt.updatePhoto 0 photo.ID)])) (by simp [afterDownload])]
      simp [dbExec_not_mem_requests]
    · simp [sqlUpdatePhoto]
    · simp [sqlUpdatePhoto]
  | true =>
    have hu2 : env.dbErr (afterDownload app env photo w).clock
        (Stmt.updatePhoto (bwValueOf true) photo.ID) = none := by simpa [bwValueOf] using hu
    rw [hu2, hi rfl]
    refine ⟨rfl, ?_, ?_, ?_, ?_, ?_⟩
    · have := sqlUpdatePhoto_flagWritten w.db 1 photo.ID (afterDownload app env photo w).clock
      simpa [sqlInsertIgnorePhotoTag, apply_ite Store.photos] using this
    · intro pt
      simp only [if_true, mem_sqlInsertIgnorePhotoTag]
      simp [sqlUpdatePhoto]
    · rw [newEvents_of_append w _ (Event.processPhoto photo.ID ::
        (requests app photo (attempts app env w.clock (sourcePaths photo)) ++
          [Event.dbExec (Stmt.updatePhoto 1 photo.ID),
           Event.dbExec (Stmt.insertIgnorePhotoTag app.bwTagID photo.ID)]))
        (by simp [afterDownload])]
      simp
    · simp only [if_true, filter_sqlInsertIgnorePhotoTag]
      simp [sqlUpdatePhoto]
    · simp [sqlInsertIgnorePhotoTag, apply_ite Store.size_variants, sqlUpdatePhoto]

/-- Witness for C3: photo `a` is acquired from its original, classified as
grayscale, flagged and tagged. -/
theorem processPhoto_success_effect_witness :
    (processPhoto exApp exEnv exPhotoA exWorld).1 = Except.ok () ∧
      ({ tag_id := 7, photo_id := "a" } : PhotoTagRow) ∈
        (processPhoto exApp exEnv exPhotoA exWorld).2.db.photos_tags :=
  have h := processPhoto_success_effect exApp exEnv exPhotoA exWorld { handle := 1 } true
    (by rfl) (by rfl) (by rfl) (by intro _; rfl)
  ⟨h.1, (h.2.2.1 _).mpr (Or.inr ⟨rfl, rfl⟩)⟩

theorem processPhoto_trace (app : App) (env : Env) (photo : Photo) (w : World) :
    (processPhoto app env photo w).2.trace =
      w.trace ++ (Event.processPhoto photo.ID ::
        requests app photo (attempts app env w.clock (sourcePaths photo)) ++
          storeStatements app env photo w) := by
  rw [processPhoto_eq]
  unfold storeStatements
  cases hd : (downloadAndAnalyzeImage app env photo w).1 with
  | error err => simp [afterDownload]
  | ok img =>
    simp only []
    cases hg : env.IsGrayscale img app.config.GrayscaleTolerance with
    | error err => simp [afterDownload]
    | ok b =>
      simp only []
      cases hu : env.dbErr (afterDownload app env photo w).clock
          (Stmt.updatePhoto (bwValueOf b) photo.ID) with
      | some err => simp [afterDownload, World.emit]
      | none =>
        cases b with
        | false => simp [afterDownload]
        | true => simp [afterDownload]

theorem processPhoto_newEvents (app : App) (env : Env) (photo : Photo) (w : World) :
    newEvents w (processPhoto app env photo w).2 =
      Event.processPhoto photo.ID ::
        requests app photo (attempts app env w.clock (sourcePaths photo)) ++
          storeStatements app env photo w :=
  newEvents_of_append _ _ _ (processPhoto_trace app env photo w)

/-- C4: in `processPhoto` the tag insert is only ever sent directly after a
flag write that the store accepted.  If the photo is grayscale, the flag
write succeeds and the tag insert fails, `processPhoto` returns nil and the
flag stays written.  If the flag write fails, `processPhoto` returns an
error, the tag insert is not sent and the store is unchanged. -/
theorem processPhoto_flag_write_before_tag (app : App) (env : Env) (photo : Photo)
    (w : World) :
    (∀ tagID photoID,
      Event.dbExec (Stmt.insertIgnorePhotoTag tagID photoID) ∈
        newEvents w (processPhoto app env photo w).2 →
      (∃ pre, newEvents w (processPhoto app env photo w).2 =
          pre ++ [Event.dbExec (Stmt.updatePhoto 1 photo.ID),
                  Event.dbExec (Stmt.insertIgnorePhotoTag app.bwTagID photo.ID)] ∧
        ∀ stmt, Event.dbExec stmt ∉ pre) ∧
      env.dbErr (afterDownload app env photo w).clock (Stmt.updatePhoto 1 photo.ID) = none) ∧
    (∀ img e, (downloadAndAnalyzeImage app env photo w).1 = Except.ok img →
      env.IsGrayscale img app.config.GrayscaleTolerance = Except.ok true →
      env.dbErr (afterDownload app env photo w).clock (Stmt.updatePhoto 1 photo.ID) = none →
      env.dbErr ((afterDownload app env photo w).clock + 1)
        (Stmt.insertIgnorePhotoTag app.bwTagID photo.ID) = some e →
      (processPhoto app env photo w).1 = Except.ok () ∧
      FlagWritten photo.ID 1 w.db.photos (processPhoto app env photo w).2.db.photos ∧
      (processPhoto app env photo w).2.db.photos_tags = w.db.photos_tags) ∧
    (∀ img b e, (downloadAndAnalyzeImage app env photo w).1 = Except.ok img →
      env.IsGrayscale img app.config.GrayscaleTolerance = Except.ok b →
      env.dbErr (afterDownload app env photo w).clock
        (Stmt.updatePhoto (if b then 1 else 0) photo.ID) = some e →
      (processPhoto app env photo w).1 =
        Except.error (Error.wrapError "failed to update photo: " e) ∧
      (∀ tagID photoID, Event.dbExec (Stmt.insertIgnorePhotoTag tagID photoID) ∉
        newEvents w (processPhoto app env photo w).2) ∧
      (processPhoto app env photo w).2.db = w.db) := by
  refine ⟨?_, ?_, ?_⟩
  · intro tagID photoID hmem
    rw [processPhoto_newEvents] at hmem ⊢
    have hmem2 : Event.dbExec (Stmt.insertIgnorePhotoTag tagID photoID) ∈
        storeStatements app env photo w := by
      rcases List.mem_append.mp hmem with h1 | h1
      · rcases List.mem_cons.mp h1 with h2 | h2
        · cases h2
        · exact absurd h2 (dbExec_not_mem_requests app photo _ _)
      · exact h1
    unfold storeStatements at hmem2 ⊢
    cases hd : (downloadAndAnalyzeImage app env photo w).1 with
    | error err => simp [hd] at hmem2
    | ok img =>
      simp only [hd] at hmem2 ⊢
      cases hg : env.IsGrayscale img app.config.GrayscaleTolerance with
      | error err => simp [hg] at hmem2
      | ok b =>
        simp only [hg] at hmem2 ⊢
        cases hu : env.dbErr (afterDownload app env photo w).clock
            (Stmt.updatePhoto (bwValueOf b) photo.ID) with
        | some err => simp [hu] at hmem2
        | none =>
          cases b with
          | false => simp [hu] at hmem2
          | true =>
            simp only [hu, if_true]
            refine ⟨⟨Event.processPhoto photo.ID ::
              requests app photo (attempts app env w.clock (sourcePaths photo)), rfl, ?_⟩, ?_⟩
            · intro stmt hs
              rcases List.mem_cons.mp hs with h2 | h2
              · cases h2
              · exact absurd h2 (dbExec_not_mem_requests app photo _ _)
            · simpa [bwValueOf] using hu
  · intro img e hd hg hu hi
    have hu2 : env.dbErr (afterDownload app env photo w).clock
        (Stmt.updatePhoto (bwValueOf true) photo.ID) = none := by simpa [bwValueOf] using hu
    rw [processPhoto_eq, hd]
    simp only []
    rw [hg]
    simp only []
    rw [hu2, hi]
    refine ⟨rfl, ?_, ?_⟩
    · simpa using sqlUpdatePhoto_flagWritten w.db 1 photo.ID _
    · simp [sqlUpdatePhoto]
  · intro img b e hd hg hu
    have hu2 : env.dbErr (afterDownload app env photo w).clock
        (Stmt.updatePhoto (bwValueOf b) photo.ID) = some e := by
      cases b <;> simpa [bwValueOf] using hu
    have hst : storeStatements app env photo w =
        [Event.dbExec (Stmt.updatePhoto (bwValueOf b) photo.ID)] := by
      unfold storeStatements
      rw [hd]; simp only []; rw [hg]; simp only []; rw [hu2]
    refine ⟨?_, ?_, ?_⟩
    · rw [processPhoto_eq, hd]; simp only []; rw [hg]; simp only []; rw [hu2]
    · intro tagID photoID hmem
      rw [processPhoto_newEvents, hst] at hmem
      rcases List.mem_append.mp hmem with h1 | h1
      · rcases List.mem_cons.mp h1 with h2 | h2
        · cases h2
        · exact absurd h2 (dbExec_not_mem_requests app photo _ _)
      · simp at h1
    · rw [processPhoto_eq, hd]; simp only []; rw [hg]; simp only []; rw [hu2]
      rfl

/-- Witness for C4: with a store that refuses every tag insert, photo `a` is
still processed without error and its flag is written; with a store that
refuses every flag write, `processPhoto` returns that failure. -/
theorem processPhoto_flag_write_before_tag_witness :
    (processPhoto exApp exEnvTagFails exPhotoA exWorld).1 = Except.ok () ∧
      FlagWritten "a" 1 exStore.photos
        (processPhoto exApp exEnvTagFails exPhotoA exWorld).2.db.photos ∧
      (processPhoto exApp exEnvUpdateFails exPhotoA exWorld).1 =
        Except.error (Error.wrapError "failed to update photo: "
          (Error.errorString "invalid connection")) :=
  have h := (processPhoto_flag_write_before_tag exApp exEnvTagFails exPhotoA exWorld).2.1
    { handle := 1 } (Error.errorString "invalid connection") (by rfl) (by rfl) (by rfl) (by rfl)
  have h2 := (processPhoto_flag_write_before_tag exApp exEnvUpdateFails exPhotoA exWorld).2.2
    { handle := 1 } true (Error.errorString "invalid connection") (by rfl) (by rfl) (by rfl)
  ⟨h.1, h.2.1, h2.1⟩

/-! ## The batch driver -/

theorem processPage_cons (app : App) (env : Env) (photo : Photo) (rest : List Photo)
    (w : World) :
    processPage app env (photo :: rest) w =
      processPage app env rest (processPhoto app env photo w).2 := by
  rw [processPage]
  cases h : processPhoto app env photo w with
  | mk r w1 => cases r <;> rfl

theorem dispatched_append (xs ys : List Event) :
    dispatched (xs ++ ys) = dispatched xs ++ dispatched ys := by
  simp [dispatched, List.filterMap_append]

theorem dispatched_requests (app : App) (photo : Photo) (k : Nat) :
    dispatched (requests app photo k) = [] := by
  unfold dispatched requests
  rw [List.filterMap_eq_nil_iff]
  intro ev hev
  rw [List.mem_map] at hev
  obtain ⟨path, _, hpath⟩ := hev
  rw [← hpath]

theorem dispatched_storeStatements (app : App) (env : Env) (photo : Photo) (w : World) :
    dispatched (storeStatements app env photo w) = [] := by
  unfold storeStatements
  cases (downloadAndAnalyzeImage app env photo w).1 with
  | error err => rfl
  | ok img =>
    simp only []
    cases env.IsGrayscale img app.config.GrayscaleTolerance with
    | error err => rfl
    | ok b =>
      simp only []
      cases env.dbErr (afterDownload app env photo w).clock
          (Stmt.updatePhoto (bwValueOf b) photo.ID) with
      | some err => rfl
      | none => cases b <;> rfl

theorem processPage_trace (app : App) (env : Env) (photos : List Photo) :
    ∀ w : World, ∃ evs, (processPage app env photos w).trace = w.trace ++ evs ∧
      dispatched evs = photos.map fun photo => photo.ID := by
  induction photos with
  | nil => intro w; exact ⟨[], by simp [processPage], rfl⟩
  | cons photo rest ih =>
    intro w
    rw [processPage_cons]
    obtain ⟨evs, h1, h2⟩ := ih (processPhoto app env photo w).2
    refine ⟨(Event.processPhoto photo.ID ::
        requests app photo (attempts app env w.clock (sourcePaths photo)) ++
          storeStatements app env photo w) ++ evs, ?_, ?_⟩
    · rw [h1, processPhoto_trace, List.append_assoc]
    · rw [dispatched_append, h2]
      have : dispatched (Event.processPhoto photo.ID ::
          requests app photo (attempts app env w.clock (sourcePaths photo)) ++
            storeStatements app env photo w) = [photo.ID] := by
        rw [List.cons_append]
        show photo.ID :: dispatched (requests app photo _ ++ storeStatements app env photo w) = _
        rw [dispatched_append, dispatched_requests, dispatched_storeStatements]
        rfl
      rw [this]
      rfl

theorem scanRows_ok (env : Env) (t : Nat) (rows : List ResultRow) :
    ∀ (i : Nat) (acc photos : List Photo), scanRows env t rows i acc = Except.ok photos →
      photos = acc ++ rows.map scanPhoto := by
  induction rows with
  | nil =>
    intro i acc photos h
    simp only [scanRows] at h
    cases h
    simp
  | cons r rest ih =>
    intro i acc photos h
    rw [scanRows] at h
    cases hs : env.scanErr t i with
    | some err => rw [hs] at h; cases h
    | none =>
      rw [hs] at h
      rw [ih _ _ _ h]
      simp

theorem scanRows_full (env : Env) (t : Nat) (hs : ∀ i, env.scanErr t i = none)
    (rows : List ResultRow) :
    ∀ (i : Nat) (acc : List Photo),
      scanRows env t rows i acc = Except.ok (acc ++ rows.map scanPhoto) := by
  induction rows with
  | nil => intro i acc; simp [scanRows]
  | cons r rest ih =>
    intro i acc
    rw [scanRows, hs i]
    simp only []
    rw [ih]
    simp

theorem mem_of_mem_deliveredRows (env : Env) (t : Nat) (rows : List ResultRow)
    (r : ResultRow) (h : r ∈ deliveredRows env t rows) : r ∈ rows := by
  unfold deliveredRows at h
  cases hk : env.rowsDelivered t with
  | none => rw [hk] at h; exact h
  | some k => rw [hk] at h; exact List.mem_of_mem_take h

theorem getPhotosToProcess_snd (app : App) (env : Env) (w : World) :
    (getPhotosToProcess app env w).2 =
      w.emit (Event.dbQuery (Stmt.selectPhotos app.bwTagID)) := by
  unfold getPhotosToProcess
  simp only []
  cases env.dbErr w.clock (Stmt.selectPhotos app.bwTagID) <;> rfl

theorem getPhotosToProcess_ok (app : App) (env : Env) (w : World) (photos : List Photo)
    (h : (getPhotosToProcess app env w).1 = Except.ok photos) :
    photos = (deliveredRows env w.clock
      (selectPhotosToProcess w.db app.bwTagID)).map scanPhoto := by
  unfold getPhotosToProcess at h
  simp only [] at h
  cases hq : env.dbErr w.clock (Stmt.selectPhotos app.bwTagID) with
  | some err => rw [hq] at h; cases h
  | none =>
    rw [hq] at h
    simpa using scanRows_ok env w.clock _ 0 [] photos h

theorem getPhotosToProcess_mem (app : App) (env : Env) (w : World) (photos : List Photo)
    (h : (getPhotosToProcess app env w).1 = Except.ok photos) (photo : Photo)
    (hp : photo ∈ photos) :
    photo ∈ (selectPhotosToProcess w.db app.bwTagID).map scanPhoto := by
  rw [getPhotosToProcess_ok app env w photos h, List.mem_map] at hp
  obtain ⟨r, hr, rfl⟩ := hp
  exact List.mem_map_of_mem scanPhoto (mem_of_mem_deliveredRows env w.clock _ r hr)

theorem getPhotosToProcess_full (app : App) (env : Env) (w : World)
    (hq : env.dbErr w.clock (Stmt.selectPhotos app.bwTagID) = none)
    (hr : env.rowsDelivered w.clock = none) (hs : ∀ i, env.scanErr w.clock i = none) :
    (getPhotosToProcess app env w).1 =
      Except.ok ((selectPhotosToProcess w.db app.bwTagID).map scanPhoto) := by
  unfold getPhotosToProcess
  simp only []
  rw [hq]
  simp only [deliveredRows, hr]
  rw [scanRows_full env w.clock hs]
  simp

theorem getPhotosToProcess_db (app : App) (env : Env) (w : World) :
    (getPhotosToProcess app env w).2.db = w.db := by
  rw [getPhotosToProcess_snd]
  rfl

theorem processPhotos_succ (app : App) (env : Env) (fuel : Nat) (w : World) :
    processPhotos app env (fuel + 1) w =
      match (getPhotosToProcess app env w).1 with
      | Except.error err =>
        (some (Except.error (Error.wrapError "failed to get photos to process: " err)),
          w.emit (Event.dbQuery (Stmt.selectPhotos app.bwTagID)))
      | Except.ok photos =>
        if photos.length = 0 then
          (some (Except.ok ()), w.emit (Event.dbQuery (Stmt.selectPhotos app.bwTagID)))
        else
          processPhotos app env fuel
            ((processPage app env photos
              (w.emit (Event.dbQuery (Stmt.selectPhotos app.bwTagID)))).emit
                (Event.sleep 100)) := by
  rw [processPhotos]
  have hS := getPhotosToProcess_snd app env w
  cases hres : (getPhotosToProcess app env w).1 with
  | error err =>
    have hpair : getPhotosToProcess app env w =
        (Except.error err, w.emit (Event.dbQuery (Stmt.selectPhotos app.bwTagID))) :=
      Prod.ext hres hS
    rw [hpair]
  | ok photos =>
    have hpair : getPhotosToProcess app env w =
        (Except.ok photos, w.emit (Event.dbQuery (Stmt.selectPhotos app.bwTagID))) :=
      Prod.ext hres hS
    rw [hpair]

theorem processPhotos_trace_extends (app : App) (env : Env) (fuel : Nat) :
    ∀ w : World, ∃ evs, (processPhotos app env fuel w).2.trace = w.trace ++ evs := by
  induction fuel with
  | zero => intro w; exact ⟨[], by simp [processPhotos]⟩
  | succ fuel ih =>
    intro w
    rw [processPhotos_succ]
    cases hres : (getPhotosToProcess app env w).1 with
    | error err => exact ⟨[Event.dbQuery (Stmt.selectPhotos app.bwTagID)], rfl⟩
    | ok photos =>
      simp only []
      by_cases hlen : photos.length = 0
      · rw [if_pos hlen]
        exact ⟨[Event.dbQuery (Stmt.selectPhotos app.bwTagID)], rfl⟩
      · rw [if_neg hlen]
        obtain ⟨evsP, hP, _⟩ := processPage_trace app env photos
          (w.emit (Event.dbQuery (Stmt.selectPhotos app.bwTagID)))
        obtain ⟨evsR, hR⟩ := ih ((processPage app env photos
          (w.emit (Event.dbQuery (Stmt.selectPhotos app.bwTagID)))).emit (Event.sleep 100))
        refine ⟨Event.dbQuery (Stmt.selectPhotos app.bwTagID) :: (evsP ++
          Event.sleep 100 :: evsR), ?_⟩
        rw [hR]
        show (processPage app env photos
            (w.emit (Event.dbQuery (Stmt.selectPhotos app.bwTagID)))).trace ++
              [Event.sleep 100] ++ evsR = _
        rw [hP]
        simp [World.emit]

theorem processPhotos_first_page (app : App) (env : Env) (fuel : Nat) (w : World)
    (photos : List Photo) (hq : (getPhotosToProcess app env w).1 = Except.ok photos)
    (hne : photos ≠ []) :
    ∃ evs rest, (processPhotos app env (fuel + 1) w).2.trace =
        w.trace ++ Event.dbQuery (Stmt.selectPhotos app.bwTagID) ::
          (evs ++ Event.sleep 100 :: rest) ∧
      dispatched evs = photos.map fun photo => photo.ID := by
  rw [processPhotos_succ, hq]
  simp only []
  have hlen : ¬ photos.length = 0 := fun h => hne (List.length_eq_zero.mp h)
  rw [if_neg hlen]
  obtain ⟨evsP, hP, hP2⟩ := processPage_trace app env photos
    (w.emit (Event.dbQuery (Stmt.selectPhotos app.bwTagID)))
  obtain ⟨evsR, hR⟩ := processPhotos_trace_extends app env fuel ((processPage app env photos
    (w.emit (Event.dbQuery (Stmt.selectPhotos app.bwTagID)))).emit (Event.sleep 100))
  refine ⟨evsP, evsR, ?_, hP2⟩
  rw [hR]
  show (processPage app env photos
      (w.emit (Event.dbQuery (Stmt.selectPhotos app.bwTagID)))).trace ++
        [Event.sleep 100] ++ evsR = _
  rw [hP]
  simp [World.emit]

theorem processPhotos_error (app : App) (env : Env) (fuel : Nat) :
    ∀ (w : World) (e : Error), (processPhotos app env fuel w).1 = some (Except.error e) →
      ∃ w1 e0, (getPhotosToProcess app env w1).1 = Except.error e0 ∧
        e = Error.wrapError "failed to get photos to process: " e0 ∧
        (processPhotos app env fuel w).2 = (getPhotosToProcess app env w1).2 := by
  induction fuel with
  | zero => intro w e h; simp [processPhotos] at h
  | succ fuel ih =>
    intro w e h
    rw [processPhotos] at h ⊢
    cases hq : getPhotosToProcess app env w with
    | mk r w1 =>
      rw [hq] at h
      cases r with
      | error err =>
        simp only [] at h ⊢
        refine ⟨w, err, by rw [hq], ?_, by rw [hq]⟩
        simpa using h.symm
      | ok photos =>
        simp only [] at h ⊢
        by_cases hlen : photos.length = 0
        · rw [if_pos hlen] at h
          simp at h
        · rw [if_neg hlen] at h ⊢
          exact ih _ e h

/-- C5: the inner loop hands every photo of the page to `processPhoto`, in
page order, whatever the outcome of each call (the environment is arbitrary);
an iteration of `processPhotos` that gets a non-empty page dispatches exactly
the photos of that page, in page order, between the query and the pause; and
when `processPhotos` returns an error, that error is the failure of a
`getPhotosToProcess` call, wrapped, with which the run ended. -/
theorem processPhotos_isolates_photo_failures (app : App) (env : Env) :
    (∀ (photos : List Photo) (w : World),
      dispatched (newEvents w (processPage app env photos w)) =
        photos.map fun photo => photo.ID) ∧
    (∀ (fuel : Nat) (w : World) (photos : List Photo),
      (getPhotosToProcess app env w).1 = Except.ok photos → photos ≠ [] →
      ∃ evs rest, (processPhotos app env (fuel + 1) w).2.trace =
          w.trace ++ Event.dbQuery (Stmt.selectPhotos app.bwTagID) ::
            (evs ++ Event.sleep 100 :: rest) ∧
        dispatched evs = photos.map fun photo => photo.ID) ∧
    (∀ (fuel : Nat) (w : World) (e : Error),
      (processPhotos app env fuel w).1 = some (Except.error e) →
      ∃ w1 e0, (getPhotosToProcess app env w1).1 = Except.error e0 ∧
        e = Error.wrapError "failed to get photos to process: " e0 ∧
        (processPhotos app env fuel w).2 = (getPhotosToProcess app env w1).2) := by
  refine ⟨?_, ?_, ?_⟩
  · intro photos w
    obtain ⟨evs, h1, h2⟩ := processPage_trace app env photos w
    rw [newEvents_of_append w _ evs h1, h2]
  · intro fuel w photos hq hne
    exact processPhotos_first_page app env fuel w photos hq hne
  · intro fuel w e h
    exact processPhotos_error app env fuel w e h

/-- Witness for C5: with a classifier that fails on every image, both photos
of the page are still dispatched, in order; and a run whose selection query
fails returns that failure. -/
theorem processPhotos_isolates_photo_failures_witness :
    dispatched (newEvents exWorld
        (processPage exApp exEnvClassifierFails [exPhotoC, exPhotoA] exWorld)) = ["c", "a"] ∧
      ∃ w1 e0, (getPhotosToProcess exApp exEnvQueryFails w1).1 = Except.error e0 ∧
        Error.wrapError "failed to get photos to process: "
            (Error.wrapError "failed to query photos: "
              (Error.errorString "invalid connection")) =
          Error.wrapError "failed to get photos to process: " e0 ∧
        (processPhotos exApp exEnvQueryFails 1 exWorld).2 =
          (getPhotosToProcess exApp exEnvQueryFails w1).2 :=
  ⟨(processPhotos_isolates_photo_failures exApp exEnvClassifierFails).1
      [exPhotoC, exPhotoA] exWorld,
    (processPhotos_isolates_photo_failures exApp exEnvQueryFails).2.2 1 exWorld _ rfl⟩

/-- C6 (the code at the failing input): with an image source that answers 500
to every request, photos `c` and `a` of `exStore` stay eligible, every
iteration of the loop selects and dispatches them again, and three
iterations later the loop is still running. -/
theorem processPhotos_redispatches_failed_photo :
    dispatched (processPhotos exApp exEnvFetchFails 3 exWorld).2.trace =
        ["c", "a", "c", "a", "c", "a"] ∧
      (processPhotos exApp exEnvFetchFails 3 exWorld).1 = none := by
  constructor
  · decide
  · rfl

/-! ## Tagging -/

theorem any_iff_mem_photoTag (l : List PhotoTagRow) (tagID : Int) (photoID : String) :
    l.any (fun pt => decide (pt.tag_id = tagID) && decide (pt.photo_id = photoID)) = true ↔
      ({ tag_id := tagID, photo_id := photoID } : PhotoTagRow) ∈ l := by
  rw [List.any_eq_true]
  constructor
  · rintro ⟨x, hx, hx2⟩
    cases x
    simp at hx2
    rw [← hx2.1, ← hx2.2]
    exact hx
  · intro h
    exact ⟨_, h, by simp⟩

theorem sqlInsertIgnorePhotoTag_of_mem (db : Store) (tagID : Int) (photoID : String)
    (h : ({ tag_id := tagID, photo_id := photoID } : PhotoTagRow) ∈ db.photos_tags) :
    sqlInsertIgnorePhotoTag db tagID photoID = db := by
  unfold sqlInsertIgnorePhotoTag
  rw [if_pos ((any_iff_mem_photoTag _ _ _).mpr h)]

theorem sqlInsertIgnorePhotoTag_mem (db : Store) (tagID : Int) (photoID : String) :
    ({ tag_id := tagID, photo_id := photoID } : PhotoTagRow) ∈
      (sqlInsertIgnorePhotoTag db tagID photoID).photos_tags :=
  (mem_sqlInsertIgnorePhotoTag db tagID photoID _).mpr (Or.inr rfl)

theorem sqlInsertIgnorePhotoTag_count (db : Store) (tagID : Int) (photoID : String)
    (h : db.photos_tags.count { tag_id := tagID, photo_id := photoID } ≤ 1) :
    (sqlInsertIgnorePhotoTag db tagID photoID).photos_tags.count
      { tag_id := tagID, photo_id := photoID } = 1 := by
  by_cases hm : ({ tag_id := tagID, photo_id := photoID } : PhotoTagRow) ∈ db.photos_tags
  · rw [sqlInsertIgnorePhotoTag_of_mem db tagID photoID hm]
    have := List.count_pos_iff.mpr hm
    omega
  · unfold sqlInsertIgnorePhotoTag
    rw [if_neg (fun hany => hm ((any_iff_mem_photoTag _ _ _).mp hany))]
    simp [List.count_eq_zero_of_not_mem hm]

/-- C9: on a store whose `photos_tags` table holds the pair (Black & White
tag, photo) at most once, and with the store accepting both statements,
`applyBWTag` twice in a row returns no error either time, the second call
leaves the store as the first left it, the pair is then present exactly
once, and when the pair was present before the first call that call changed
nothing either. -/
theorem applyBWTag_idempotent (app : App) (env : Env) (photoID : String) (w : World)
    (h1 : env.dbErr w.clock (Stmt.insertIgnorePhotoTag app.bwTagID photoID) = none)
    (h2 : env.dbErr (w.clock + 1) (Stmt.insertIgnorePhotoTag app.bwTagID photoID) = none)
    (huniq : w.db.photos_tags.count { tag_id := app.bwTagID, photo_id := photoID } ≤ 1) :
    (applyBWTag app env photoID w).1 = Except.ok () ∧
    (applyBWTag app env photoID (applyBWTag app env photoID w).2).1 = Except.ok () ∧
    (applyBWTag app env photoID (applyBWTag app env photoID w).2).2.db =
      (applyBWTag app env photoID w).2.db ∧
    (applyBWTag app env photoID (applyBWTag app env photoID w).2).2.db.photos_tags.count
      { tag_id := app.bwTagID, photo_id := photoID } = 1 ∧
    (({ tag_id := app.bwTagID, photo_id := photoID } : PhotoTagRow) ∈ w.db.photos_tags →
      (applyBWTag app env photoID w).2.db = w.db) := by
  have e1 : applyBWTag app env photoID w =
      (Except.ok (), { db := sqlInsertIgnorePhotoTag w.db app.bwTagID photoID,
                       clock := w.clock + 1,
                       trace := w.trace ++
                         [Event.dbExec (Stmt.insertIgnorePhotoTag app.bwTagID photoID)] }) := by
    simp [applyBWTag, h1, World.emit]
  have e2 : applyBWTag app env photoID (applyBWTag app env photoID w).2 =
      (Except.ok (), { db := sqlInsertIgnorePhotoTag w.db app.bwTagID photoID,
                       clock := w.clock + 2,
                       trace := w.trace ++
                         [Event.dbExec (Stmt.insertIgnorePhotoTag app.bwTagID photoID),
                          Event.dbExec (Stmt.insertIgnorePhotoTag app.bwTagID photoID)] }) := by
    rw [e1]
    simp [applyBWTag, h2, World.emit,
      sqlInsertIgnorePhotoTag_of_mem _ _ _ (sqlInsertIgnorePhotoTag_mem w.db app.bwTagID photoID)]
  rw [e2, e1]
  refine ⟨rfl, rfl, rfl, ?_, ?_⟩
  · exact sqlInsertIgnorePhotoTag_count w.db app.bwTagID photoID huniq
  · intro hm
    exact sqlInsertIgnorePhotoTag_of_mem w.db app.bwTagID photoID hm

/-- Witness for C9: tagging photo `a` twice on the store without tags leaves
one association. -/
theorem applyBWTag_idempotent_witness :
    (applyBWTag exApp exEnv "a" (applyBWTag exApp exEnv "a" exWorld).2).2.db.photos_tags.count
      { tag_id := 7, photo_id := "a" } = 1 :=
  (applyBWTag_idempotent exApp exEnv "a" exWorld (by rfl) (by rfl) (by decide)).2.2.2.1

/-! ## Candidate selection -/

theorem mem_leftJoin {α : Type} (l : List α) (x : Option α) :
    x ∈ leftJoin l ↔ (x = none ∧ l = []) ∨ ∃ a, a ∈ l ∧ x = some a := by
  cases l with
  | nil => simp [leftJoin]
  | cons a rest =>
    simp only [leftJoin, List.mem_map]
    constructor
    · rintro ⟨b, hb, rfl⟩
      exact Or.inr ⟨b, hb, rfl⟩
    · rintro (⟨_, h⟩ | ⟨b, hb, rfl⟩)
      · cases h
      · exact ⟨b, hb, rfl⟩

theorem leftJoin_ne_nil {α : Type} (l : List α) : leftJoin l ≠ [] := by
  cases l with
  | nil => simp [leftJoin]
  | cons a rest => simp [leftJoin]

theorem mem_joinedRows (db : Store) (tagID : Int) (jr : JoinedRow) :
    jr ∈ joinedRows db tagID ↔
      jr.p ∈ db.photos ∧
      jr.pt ∈ leftJoin (db.photos_tags.filter fun pt =>
        decide (jr.p.id = pt.photo_id) && decide (pt.tag_id = tagID)) ∧
      jr.sv_large ∈ leftJoin (db.size_variants.filter fun sv =>
        decide (jr.p.id = sv.photo_id) && decide (sv.type = 2)) ∧
      jr.sv_original ∈ leftJoin (db.size_variants.filter fun sv =>
        decide (jr.p.id = sv.photo_id) && decide (sv.type = 0)) := by
  unfold joinedRows
  simp only [List.mem_flatMap, List.mem_map]
  constructor
  · rintro ⟨p, hp, pt, hpt, svl, hsvl, svo, hsvo, rfl⟩
    exact ⟨hp, hpt, hsvl, hsvo⟩
  · rintro ⟨hp, hpt, hsvl, hsvo⟩
    exact ⟨jr.p, hp, jr.pt, hpt, jr.sv_large, hsvl, jr.sv_original, hsvo, rfl⟩

theorem whereClause_iff (jr : JoinedRow) :
    whereClause jr = true ↔
      jr.pt = none ∧ jr.p._dz_bw = none ∧ likeContains jr.p.type "video" = false ∧
        likeContains jr.p.type "raw" = false := by
  unfold whereClause
  cases jr.pt <;> cases jr.p._dz_bw <;> simp [and_assoc]

theorem mem_selectPhotosToProcess (db : Store) (tagID : Int) (rr : ResultRow)
    (h : rr ∈ selectPhotosToProcess db tagID) :
    ∃ jr, jr ∈ joinedRows db tagID ∧ whereClause jr = true ∧ rr = selectColumns jr := by
  unfold selectPhotosToProcess at h
  rw [List.mem_map] at h
  obtain ⟨jr, hjr, rfl⟩ := h
  have h2 := List.mem_of_mem_take hjr
  have h3 := (List.perm_insertionSort _ _).mem_iff.mp h2
  rw [List.mem_filter] at h3
  exact ⟨jr, h3.1, h3.2, rfl⟩

theorem no_association_of_joined (db : Store) (tagID : Int) (jr : JoinedRow)
    (hj : jr ∈ joinedRows db tagID) (hpt : jr.pt = none) :
    ∀ pt ∈ db.photos_tags, ¬ (pt.photo_id = jr.p.id ∧ pt.tag_id = tagID) := by
  have h := ((mem_joinedRows db tagID jr).mp hj).2.1
  rw [hpt, mem_leftJoin] at h
  rcases h with ⟨_, hnil⟩ | ⟨a, _, ha⟩
  · intro pt hpt2 hcon
    have : pt ∈ db.photos_tags.filter fun pt =>
        decide (jr.p.id = pt.photo_id) && decide (pt.tag_id = tagID) := by
      rw [List.mem_filter]
      exact ⟨hpt2, by simp [hcon.1, hcon.2]⟩
    rw [hnil] at this
    cases this
  · cases ha

theorem not_contains_of_likeContains (s pat : String) (h : likeContains s pat = false) :
    ∀ pre post : String, s ≠ pre ++ pat ++ post := by
  intro pre post heq
  unfold likeContains at h
  have h2 : ¬ (pat.data <:+: s.data) := by simpa using h
  apply h2
  refine ⟨pre.data, post.data, ?_⟩
  rw [heq]
  simp [String.data_append]

theorem page_photo_eligible (app : App) (env : Env) (w : World) (photos : List Photo)
    (h : (getPhotosToProcess app env w).1 = Except.ok photos) (photo : Photo)
    (hp : photo ∈ photos) :
    ∃ r, r ∈ w.db.photos ∧ r.id = photo.ID ∧ r.type = photo.Type_ ∧ r._dz_bw = none ∧
      (∀ pt ∈ w.db.photos_tags, ¬ (pt.photo_id = photo.ID ∧ pt.tag_id = app.bwTagID)) ∧
      (∀ pre post : String, photo.Type_ ≠ pre ++ "video" ++ post) ∧
      (∀ pre post : String, photo.Type_ ≠ pre ++ "raw" ++ post) := by
  have hp2 := getPhotosToProcess_mem app env w photos h photo hp
  rw [List.mem_map] at hp2
  obtain ⟨rr, hrr, rfl⟩ := hp2
  obtain ⟨jr, hj, hw, rfl⟩ := mem_selectPhotosToProcess _ _ _ hrr
  obtain ⟨hw1, hw2, hw3, hw4⟩ := (whereClause_iff jr).mp hw
  refine ⟨jr.p, ((mem_joinedRows _ _ _).mp hj).1, rfl, rfl, hw2, ?_, ?_, ?_⟩
  · exact no_association_of_joined _ _ jr hj hw1
  · exact not_contains_of_likeContains _ _ hw3
  · exact not_contains_of_likeContains _ _ hw4

/-! ## Writes and later stores -/

theorem sqlInsertIgnorePhotoTag_photos (db : Store) (tagID : Int) (photoID : String) :
    (sqlInsertIgnorePhotoTag db tagID photoID).photos = db.photos := by
  unfold sqlInsertIgnorePhotoTag
  split <;> rfl

theorem sqlInsertIgnorePhotoTag_size_variants (db : Store) (tagID : Int) (photoID : String) :
    (sqlInsertIgnorePhotoTag db tagID photoID).size_variants = db.size_variants := by
  unfold sqlInsertIgnorePhotoTag
  split <;> rfl

theorem refines_refl (db : Store) : Refines db db :=
  ⟨id, by simp, fun r => ⟨rfl, fun _ => rfl⟩, fun _ h => h, rfl⟩

theorem refines_trans {a b c : Store} (h1 : Refines a b) (h2 : Refines b c) : Refines a c := by
  obtain ⟨f, hf1, hf2, hf3, hf4⟩ := h1
  obtain ⟨g, hg1, hg2, hg3, hg4⟩ := h2
  refine ⟨g ∘ f, ?_, ?_, ?_, ?_⟩
  · rw [hg1, hf1, List.map_map]
  · intro r
    refine ⟨by simp [(hg2 (f r)).1, (hf2 r).1], ?_⟩
    intro hnone
    have e1 : g (f r) = f r := (hg2 (f r)).2 hnone
    have e2 : (f r)._dz_bw = none := by
      have : (g (f r))._dz_bw = none := hnone
      rw [e1] at this
      exact this
    show g (f r) = r
    rw [e1]
    exact (hf2 r).2 e2
  · intro pt hpt
    exact hg3 pt (hf3 pt hpt)
  · rw [hg4, hf4]

theorem refines_of_step {a b : Store} (h : StoreStep a b) : Refines a b := by
  cases h with
  | update bwValue photoID now =>
    refine ⟨fun r => if r.id = photoID then
        { r with _dz_bw := some bwValue, updated_at := now } else r, rfl, ?_, ?_, rfl⟩
    · intro r
      by_cases hr : r.id = photoID
      · simp [hr]
      · simp [hr]
    · intro pt hpt
      exact hpt
  | insertIgnore tagID photoID =>
    refine ⟨id, ?_, fun r => ⟨rfl, fun _ => rfl⟩, ?_, ?_⟩
    · simp [sqlInsertIgnorePhotoTag_photos]
    · intro pt hpt
      exact (mem_sqlInsertIgnorePhotoTag a tagID photoID pt).mpr (Or.inl hpt)
    · exact sqlInsertIgnorePhotoTag_size_variants a tagID photoID

theorem refines_of_later {a b : Store} (h : StoreLater a b) : Refines a b := by
  induction h with
  | refl => exact refines_refl a
  | tail _ hstep ih => exact refines_trans ih (refines_of_step hstep)

theorem flagSet_of_refines {a b : Store} (h : Refines a b) (photoID : String)
    (hs : FlagSet a photoID) : FlagSet b photoID := by
  obtain ⟨f, hf1, hf2, _, _⟩ := h
  intro r1 hr1 hid hnone
  rw [hf1, List.mem_map] at hr1
  obtain ⟨r, hr, rfl⟩ := hr1
  have e := (hf2 r).2 hnone
  rw [e] at hid hnone
  exact hs r hr hid hnone

theorem flagSet_of_update (db : Store) (bwValue : Int) (photoID : String) (now : Nat) :
    FlagSet (sqlUpdatePhoto db bwValue photoID now) photoID := by
  intro r1 hr1 hid hnone
  unfold sqlUpdatePhoto at hr1
  simp only [List.mem_map] at hr1
  obtain ⟨r, _, rfl⟩ := hr1
  by_cases hr : r.id = photoID
  · simp [hr] at hnone
  · simp [hr] at hid

theorem storeLater_trans {a b c : Store} (h1 : StoreLater a b) (h2 : StoreLater b c) :
    StoreLater a c :=
  Relation.ReflTransGen.trans h1 h2

theorem processPhoto_later (app : App) (env : Env) (photo : Photo) (w : World) :
    StoreLater w.db (processPhoto app env photo w).2.db := by
  rw [processPhoto_eq]
  cases (downloadAndAnalyzeImage app env photo w).1 with
  | error err => exact Relation.ReflTransGen.refl
  | ok img =>
    simp only []
    cases env.IsGrayscale img app.config.GrayscaleTolerance with
    | error err => exact Relation.ReflTransGen.refl
    | ok b =>
      simp only []
      cases env.dbErr (afterDownload app env photo w).clock
          (Stmt.updatePhoto (bwValueOf b) photo.ID) with
      | some err => exact Relation.ReflTransGen.refl
      | none =>
        cases b with
        | false =>
          exact Relation.ReflTransGen.single (StoreStep.update _ _ _ _)
        | true =>
          simp only [if_true]
          cases env.dbErr ((afterDownload app env photo w).clock + 1)
              (Stmt.insertIgnorePhotoTag app.bwTagID photo.ID) with
          | some err => exact Relation.ReflTransGen.single (StoreStep.update _ _ _ _)
          | none =>
            exact Relation.ReflTransGen.tail
              (Relation.ReflTransGen.single (StoreStep.update _ _ _ _))
              (StoreStep.insertIgnore _ _ _)

theorem processPage_later (app : App) (env : Env) (photos : List Photo) :
    ∀ w : World, StoreLater w.db (processPage app env photos w).db := by
  induction photos with
  | nil => intro w; exact Relation.ReflTransGen.refl
  | cons photo rest ih =>
    intro w
    rw [processPage_cons]
    exact storeLater_trans (processPhoto_later app env photo w) (ih _)

theorem processPhotos_later (app : App) (env : Env) (fuel : Nat) :
    ∀ w : World, StoreLater w.db (processPhotos app env fuel w).2.db := by
  induction fuel with
  | zero => intro w; exact Relation.ReflTransGen.refl
  | succ fuel ih =>
    intro w
    rw [processPhotos]
    have hdb := getPhotosToProcess_db app env w
    cases hq : getPhotosToProcess app env w with
    | mk r w1 =>
      rw [hq] at hdb
      simp only [] at hdb
      cases r with
      | error err => simp only []; rw [hdb]; exact Relation.ReflTransGen.refl
      | ok photos =>
        simp only []
        by_cases hlen : photos.length = 0
        · rw [if_pos hlen]; simp only []; rw [hdb]; exact Relation.ReflTransGen.refl
        · rw [if_neg hlen]
          have h1 : StoreLater w.db (processPage app env photos w1).db := by
            rw [← hdb]; exact processPage_later app env photos w1
          exact storeLater_trans h1
            (ih ((processPage app env photos w1).emit (Event.sleep 100)))

/-- C7: every photo that `getPhotosToProcess` returns comes from a photo row
whose flag `_dz_bw` is NULL; the photo has no association to the Black &
White tag and its type contains neither `video` nor `raw`.  Once
`updatePhotoProcessing` has written the flag of a photo (either value), no
selection on that store or on any store later than it returns the photo;
and the stores a run of `processPhoto` or `processPhotos` leaves are later
stores. -/
theorem getPhotosToProcess_eligibility (app : App) (env : Env) :
    (∀ (w : World) (photos : List Photo),
      (getPhotosToProcess app env w).1 = Except.ok photos → ∀ photo ∈ photos,
      ∃ r, r ∈ w.db.photos ∧ r.id = photo.ID ∧ r.type = photo.Type_ ∧ r._dz_bw = none ∧
        (∀ pt ∈ w.db.photos_tags, ¬ (pt.photo_id = photo.ID ∧ pt.tag_id = app.bwTagID)) ∧
        (∀ pre post : String, photo.Type_ ≠ pre ++ "video" ++ post) ∧
        (∀ pre post : String, photo.Type_ ≠ pre ++ "raw" ++ post)) ∧
    (∀ (w : World) (photoID : String) (b : Bool),
      (updatePhotoProcessing app env photoID b w).1 = Except.ok () →
      ∀ w2 : World, StoreLater (updatePhotoProcessing app env photoID b w).2.db w2.db →
      ∀ photos : List Photo, (getPhotosToProcess app env w2).1 = Except.ok photos →
      ∀ photo ∈ photos, photo.ID ≠ photoID) ∧
    (∀ (photo : Photo) (w : World), StoreLater w.db (processPhoto app env photo w).2.db) ∧
    (∀ (fuel : Nat) (w : World), StoreLater w.db (processPhotos app env fuel w).2.db) := by
  refine ⟨?_, ?_, ?_, ?_⟩
  · intro w photos h photo hp
    exact page_photo_eligible app env w photos h photo hp
  · intro w photoID b hok w2 hlater photos hq photo hp hid
    have hset : FlagSet (updatePhotoProcessing app env photoID b w).2.db photoID := by
      unfold updatePhotoProcessing at hok ⊢
      simp only [] at hok ⊢
      cases hu : env.dbErr w.clock (Stmt.updatePhoto (if b = true then 1 else 0) photoID) with
      | some err => rw [hu] at hok; cases hok
      | none => exact flagSet_of_update _ _ _ _
    have hset2 := flagSet_of_refines (refines_of_later hlater) photoID hset
    obtain ⟨r, hr, hrid, _, hnone, _⟩ := page_photo_eligible app env w2 photos hq photo hp
    exact hset2 r hr (hrid.trans hid) hnone
  · intro photo w
    exact processPhoto_later app env photo w
  · intro fuel w
    exact processPhotos_later app env fuel w

/-- Witness for C7: once the flag of photo `c` is written (as color), the next
selection returns photo `a` only. -/
theorem getPhotosToProcess_eligibility_witness :
    (updatePhotoProcessing exApp exEnv "c" false exWorld).1 = Except.ok () ∧
      (getPhotosToProcess exApp exEnv
          (updatePhotoProcessing exApp exEnv "c" false exWorld).2).1 = Except.ok [exPhotoA] ∧
      exPhotoA.ID ≠ "c" :=
  ⟨rfl, rfl,
    (getPhotosToProcess_eligibility exApp exEnv).2.1 exWorld "c" false rfl
      (updatePhotoProcessing exApp exEnv "c" false exWorld).2 Relation.ReflTransGen.refl
      [exPhotoA] rfl exPhotoA (List.mem_singleton.mpr rfl)⟩

/-! ## Progress of the paging loop -/

theorem eligible_iff (db : Store) (tagID : Int) (r : PhotoRow) :
    eligible db tagID r = true ↔
      (∀ pt ∈ db.photos_tags, ¬ (pt.photo_id = r.id ∧ pt.tag_id = tagID)) ∧
        r._dz_bw = none ∧ likeContains r.type "video" = false ∧
        likeContains r.type "raw" = false := by
  unfold eligible
  cases r._dz_bw <;> simp [List.all_eq_true, and_assoc, imp_iff_not_or]

theorem countP_lt_of_imp {α : Type} (p q : α → Bool) (l : List α)
    (h : ∀ x ∈ l, p x = true → q x = true) (x : α) (hx : x ∈ l) (hq : q x = true)
    (hp : p x = false) : l.countP p < l.countP q := by
  induction l with
  | nil => cases hx
  | cons a rest ih =>
    rw [List.countP_cons, List.countP_cons]
    have hmono : rest.countP p ≤ rest.countP q :=
      List.countP_mono_left fun y hy hpy => h y (List.mem_cons_of_mem _ hy) hpy
    rcases List.mem_cons.mp hx with rfl | hmem
    · simp [hq, hp]
      omega
    · have hlt := ih (fun y hy hpy => h y (List.mem_cons_of_mem _ hy) hpy) hmem
      by_cases hpa : p a = true
      · have hqa := h a (List.mem_cons_self _ _) hpa
        simp [hpa, hqa]
        omega
      · by_cases hqa : q a = true
        · simp [hpa, hqa]
          omega
        · simp [hpa, hqa]
          omega

theorem eligible_of_refines {a b : Store} (f : PhotoRow → PhotoRow)
    (hf : ∀ r, (f r).id = r.id ∧ ((f r)._dz_bw = none → f r = r))
    (ht : ∀ pt ∈ a.photos_tags, pt ∈ b.photos_tags) (tagID : Int) (r : PhotoRow)
    (h : eligible b tagID (f r) = true) : eligible a tagID r = true := by
  rw [eligible_iff] at h ⊢
  obtain ⟨h1, h2, h3, h4⟩ := h
  have e := (hf r).2 h2
  rw [e] at h1 h2 h3 h4
  exact ⟨fun pt hpt => h1 pt (ht pt hpt), h2, h3, h4⟩

theorem eligibleCount_le_of_refines {a b : Store} (h : Refines a b) (tagID : Int) :
    eligibleCount b tagID ≤ eligibleCount a tagID := by
  obtain ⟨f, hf1, hf2, hf3, _⟩ := h
  unfold eligibleCount
  rw [hf1, List.countP_map]
  exact List.countP_mono_left fun r _ hr => eligible_of_refines f hf2 hf3 tagID r hr

theorem eligibleCount_lt_of_refines {a b : Store} (h : Refines a b) (tagID : Int)
    (photoID : String) (hs : FlagSet b photoID) (r : PhotoRow) (hr : r ∈ a.photos)
    (hid : r.id = photoID) (he : eligible a tagID r = true) :
    eligibleCount b tagID < eligibleCount a tagID := by
  obtain ⟨f, hf1, hf2, hf3, _⟩ := h
  unfold eligibleCount
  rw [hf1, List.countP_map]
  apply countP_lt_of_imp _ _ _
    (fun x _ hx => eligible_of_refines f hf2 hf3 tagID x hx) r hr he
  cases hfr : eligible b tagID (f r) with
  | false => rfl
  | true =>
    exfalso
    have hnone : (f r)._dz_bw = none := ((eligible_iff b tagID (f r)).mp hfr).2.1
    have hmem : f r ∈ b.photos := by
      rw [hf1]
      exact List.mem_map_of_mem f hr
    exact hs (f r) hmem ((hf2 r).1.trans hid) hnone

theorem eligibleCount_of_select_nil (db : Store) (tagID : Int)
    (h : selectPhotosToProcess db tagID = []) : eligibleCount db tagID = 0 := by
  unfold selectPhotosToProcess at h
  rw [List.map_eq_nil_iff, List.take_eq_nil_iff] at h
  have hsort : ((joinedRows db tagID).filter whereClause).insertionSort
      (fun a b => a.p.created_at ≤ b.p.created_at) = [] := by
    rcases h with h | h
    · omega
    · exact h
  have hfil : (joinedRows db tagID).filter whereClause = [] := by
    have hlen := List.length_insertionSort (fun a b : JoinedRow => a.p.created_at ≤ b.p.created_at)
      ((joinedRows db tagID).filter whereClause)
    rw [hsort] at hlen
    exact List.length_eq_zero.mp hlen.symm
  unfold eligibleCount
  rw [List.countP_eq_zero]
  intro r hr he
  obtain ⟨h1, h2, h3, h4⟩ := (eligible_iff db tagID r).mp he
  obtain ⟨svl, hsvl⟩ := List.exists_mem_of_ne_nil _ (leftJoin_ne_nil
    (db.size_variants.filter fun sv : SizeVariantRow =>
      decide (r.id = sv.photo_id) && decide (sv.type = 2)))
  obtain ⟨svo, hsvo⟩ := List.exists_mem_of_ne_nil _ (leftJoin_ne_nil
    (db.size_variants.filter fun sv : SizeVariantRow =>
      decide (r.id = sv.photo_id) && decide (sv.type = 0)))
  have hj : ({ p := r, pt := none, sv_large := svl, sv_original := svo } : JoinedRow) ∈
      joinedRows db tagID := by
    rw [mem_joinedRows]
    refine ⟨hr, ?_, hsvl, hsvo⟩
    rw [mem_leftJoin]
    left
    refine ⟨rfl, ?_⟩
    rw [List.filter_eq_nil_iff]
    intro pt hpt hcon
    simp only [Bool.and_eq_true, decide_eq_true_eq] at hcon
    exact h1 pt hpt ⟨hcon.1.symm, hcon.2⟩
  have hmem : ({ p := r, pt := none, sv_large := svl, sv_original := svo } : JoinedRow) ∈
      (joinedRows db tagID).filter whereClause := by
    rw [List.mem_filter]
    exact ⟨hj, (whereClause_iff _).mpr ⟨rfl, h2, h3, h4⟩⟩
  rw [hfil] at hmem
  cases hmem

theorem page_photo_eligible_row (db : Store) (tagID : Int) (photo : Photo)
    (hp : photo ∈ (selectPhotosToProcess db tagID).map scanPhoto) :
    ∃ r, r ∈ db.photos ∧ r.id = photo.ID ∧ eligible db tagID r = true := by
  rw [List.mem_map] at hp
  obtain ⟨rr, hrr, rfl⟩ := hp
  obtain ⟨jr, hj, hw, rfl⟩ := mem_selectPhotosToProcess _ _ _ hrr
  obtain ⟨hw1, hw2, hw3, hw4⟩ := (whereClause_iff jr).mp hw
  refine ⟨jr.p, ((mem_joinedRows _ _ _).mp hj).1, rfl, ?_⟩
  rw [eligible_iff]
  exact ⟨no_association_of_joined _ _ jr hj hw1, hw2, hw3, hw4⟩

theorem processPhoto_ok_flagSet (app : App) (env : Env) (photo : Photo) (w : World)
    (h : (processPhoto app env photo w).1 = Except.ok ()) :
    FlagSet (processPhoto app env photo w).2.db photo.ID := by
  rw [processPhoto_eq] at h ⊢
  cases hd : (downloadAndAnalyzeImage app env photo w).1 with
  | error err => rw [hd] at h; cases h
  | ok img =>
    rw [hd] at h
    simp only [] at h ⊢
    cases hg : env.IsGrayscale img app.config.GrayscaleTolerance with
    | error err => rw [hg] at h; cases h
    | ok b =>
      rw [hg] at h
      simp only [] at h ⊢
      cases hu : env.dbErr (afterDownload app env photo w).clock
          (Stmt.updatePhoto (bwValueOf b) photo.ID) with
      | some err => rw [hu] at h; cases h
      | none =>
        cases b with
        | false => exact flagSet_of_update _ _ _ _
        | true =>
          simp only [if_true]
          cases env.dbErr ((afterDownload app env photo w).clock + 1)
              (Stmt.insertIgnorePhotoTag app.bwTagID photo.ID) with
          | some err => exact flagSet_of_update _ _ _ _
          | none =>
            exact flagSet_of_refines (refines_of_step (StoreStep.insertIgnore _ _ _)) _
              (flagSet_of_update _ _ _ _)

theorem processPage_eligibleCount_lt (app : App) (env : Env) (w : World)
    (photos : List Photo) (hq : (getPhotosToProcess app env w).1 = Except.ok photos)
    (hne : photos ≠ [])
    (hs : pageSucceeds app env photos (getPhotosToProcess app env w).2 = true) :
    eligibleCount (processPage app env photos (getPhotosToProcess app env w).2).db
      app.bwTagID < eligibleCount w.db app.bwTagID := by
  have hmemAll := getPhotosToProcess_mem app env w photos hq
  have hdb := getPhotosToProcess_db app env w
  cases photos with
  | nil => exact absurd rfl hne
  | cons photo rest =>
    rw [pageSucceeds, Bool.and_eq_true] at hs
    have hok : (processPhoto app env photo (getPhotosToProcess app env w).2).1 =
        Except.ok () := by
      cases hres : (processPhoto app env photo (getPhotosToProcess app env w).2).1 with
      | error err => rw [hres] at hs; simp at hs
      | ok u => rfl
    have hflag := processPhoto_ok_flagSet app env photo _ hok
    have hmem : photo ∈ (selectPhotosToProcess w.db app.bwTagID).map scanPhoto :=
      hmemAll photo (List.mem_cons_self _ _)
    obtain ⟨r, hr, hid, he⟩ := page_photo_eligible_row w.db app.bwTagID photo hmem
    have hlater : StoreLater w.db
        (processPage app env (photo :: rest) (getPhotosToProcess app env w).2).db := by
      have := processPage_later app env (photo :: rest) (getPhotosToProcess app env w).2
      rw [hdb] at this
      exact this
    have hflag2 : FlagSet
        (processPage app env (photo :: rest) (getPhotosToProcess app env w).2).db photo.ID := by
      rw [processPage_cons]
      exact flagSet_of_refines (refines_of_later (processPage_later app env rest _)) _ hflag
    exact eligibleCount_lt_of_refines (refines_of_later hlater) app.bwTagID photo.ID hflag2
      r hr hid he

theorem sleep_not_mem_newEvents_processPhoto (app : App) (env : Env) (photo : Photo)
    (w : World) (ms : Nat) :
    Event.sleep ms ∉ Event.processPhoto photo.ID ::
      requests app photo (attempts app env w.clock (sourcePaths photo)) ++
        storeStatements app env photo w := by
  intro hmem
  rcases List.mem_append.mp hmem with h1 | h1
  · rcases List.mem_cons.mp h1 with h2 | h2
    · cases h2
    · unfold requests at h2
      rw [List.mem_map] at h2
      obtain ⟨path, _, hpath⟩ := h2
      cases hpath
  · unfold storeStatements at h1
    cases hd : (downloadAndAnalyzeImage app env photo w).1 with
    | error err => simp [hd] at h1
    | ok img =>
      simp only [hd] at h1
      cases hg : env.IsGrayscale img app.config.GrayscaleTolerance with
      | error err => simp [hg] at h1
      | ok b =>
        simp only [hg] at h1
        cases hu : env.dbErr (afterDownload app env photo w).clock
            (Stmt.updatePhoto (bwValueOf b) photo.ID) with
        | some err => simp [hu] at h1
        | none => cases b <;> simp [hu] at h1

theorem processPage_trace_sleep (app : App) (env : Env) (photos : List Photo) :
    ∀ w : World, ∃ evs, (processPage app env photos w).trace = w.trace ++ evs ∧
      ∀ ms, Event.sleep ms ∉ evs := by
  induction photos with
  | nil => intro w; exact ⟨[], by simp [processPage], by simp⟩
  | cons photo rest ih =>
    intro w
    rw [processPage_cons]
    obtain ⟨evs, h1, h2⟩ := ih (processPhoto app env photo w).2
    refine ⟨(Event.processPhoto photo.ID ::
        requests app photo (attempts app env w.clock (sourcePaths photo)) ++
          storeStatements app env photo w) ++ evs, ?_, ?_⟩
    · rw [h1, processPhoto_trace, List.append_assoc]
    · intro ms hmem
      rcases List.mem_append.mp hmem with h3 | h3
      · exact sleep_not_mem_newEvents_processPhoto app env photo w ms h3
      · exact h2 ms h3

theorem photosSucceed_succ (app : App) (env : Env) (fuel : Nat) (w : World) :
    photosSucceed app env (fuel + 1) w =
      match (getPhotosToProcess app env w).1 with
      | Except.error _ => true
      | Except.ok photos =>
        if photos.length = 0 then true
        else
          pageSucceeds app env photos (w.emit (Event.dbQuery (Stmt.selectPhotos app.bwTagID)))
            && photosSucceed app env fuel
              ((processPage app env photos
                (w.emit (Event.dbQuery (Stmt.selectPhotos app.bwTagID)))).emit
                  (Event.sleep 100)) := by
  rw [photosSucceed]
  have hS := getPhotosToProcess_snd app env w
  cases hres : (getPhotosToProcess app env w).1 with
  | error err =>
    have hpair : getPhotosToProcess app env w =
        (Except.error err, w.emit (Event.dbQuery (Stmt.selectPhotos app.bwTagID))) :=
      Prod.ext hres hS
    rw [hpair]
  | ok photos =>
    have hpair : getPhotosToProcess app env w =
        (Except.ok photos, w.emit (Event.dbQuery (Stmt.selectPhotos app.bwTagID))) :=
      Prod.ext hres hS
    rw [hpair]

theorem processPhotos_terminates_aux (app : App) (env : Env) (fuel : Nat) :
    ∀ w : World, eligibleCount w.db app.bwTagID < fuel →
      photosSucceed app env fuel w = true →
      (∃ r, (processPhotos app env fuel w).1 = some r) ∧
      ((∀ t, env.dbErr t (Stmt.selectPhotos app.bwTagID) = none) →
        (∀ t i, env.scanErr t i = none) →
        (processPhotos app env fuel w).1 = some (Except.ok ())) ∧
      ((∀ t, env.rowsDelivered t = none) →
        (processPhotos app env fuel w).1 = some (Except.ok ()) →
        eligibleCount (processPhotos app env fuel w).2.db app.bwTagID = 0) ∧
      ∃ evs, (processPhotos app env fuel w).2.trace = w.trace ++ evs ∧
        evs.count (Event.sleep 100) ≤ eligibleCount w.db app.bwTagID := by
  induction fuel with
  | zero => intro w h; omega
  | succ fuel ih =>
    intro w hlt hrun
    rw [photosSucceed_succ] at hrun
    rw [processPhotos_succ]
    have hS := getPhotosToProcess_snd app env w
    cases hres : (getPhotosToProcess app env w).1 with
    | error err =>
      simp only []
      refine ⟨⟨_, rfl⟩, ?_, ?_, ⟨[Event.dbQuery (Stmt.selectPhotos app.bwTagID)], rfl, ?_⟩⟩
      · intro hq hs
        unfold getPhotosToProcess at hres
        simp only [] at hres
        rw [hq w.clock, scanRows_full env w.clock (hs w.clock)] at hres
        cases hres
      · intro _ h
        simp at h
      · simp
    | ok photos =>
      have hpage := processPage_eligibleCount_lt app env w photos hres
      rw [hS] at hpage
      rw [hres] at hrun
      simp only [] at hrun ⊢
      by_cases hlen : photos.length = 0
      · rw [if_pos hlen]
        have hnil : photos = [] := List.length_eq_zero.mp hlen
        refine ⟨⟨_, rfl⟩, fun _ _ => rfl, ?_,
          ⟨[Event.dbQuery (Stmt.selectPhotos app.bwTagID)], rfl, ?_⟩⟩
        · intro hr _
          have hfull := getPhotosToProcess_ok app env w photos hres
          simp only [deliveredRows, hr w.clock] at hfull
          rw [hnil] at hfull
          exact eligibleCount_of_select_nil w.db app.bwTagID
            (List.map_eq_nil_iff.mp hfull.symm)
        · simp
      · rw [if_neg hlen] at hrun ⊢
        rw [Bool.and_eq_true] at hrun
        have hne : photos ≠ [] := fun h => hlen (by rw [h]; rfl)
        have hdec := hpage hne hrun.1
        obtain ⟨evsP, hP1, hP2⟩ := processPage_trace_sleep app env photos
          (w.emit (Event.dbQuery (Stmt.selectPhotos app.bwTagID)))
        have hrec := ih ((processPage app env photos
          (w.emit (Event.dbQuery (Stmt.selectPhotos app.bwTagID)))).emit (Event.sleep 100))
          (by
            show eligibleCount (processPage app env photos
              (w.emit (Event.dbQuery (Stmt.selectPhotos app.bwTagID)))).db app.bwTagID < fuel
            omega)
          hrun.2
        obtain ⟨hr1, hr2, hr3, evsR, hR1, hR2⟩ := hrec
        refine ⟨hr1, hr2, hr3, ⟨Event.dbQuery (Stmt.selectPhotos app.bwTagID) :: evsP ++
          Event.sleep 100 :: evsR, ?_, ?_⟩⟩
        · rw [hR1]
          show (processPage app env photos
              (w.emit (Event.dbQuery (Stmt.selectPhotos app.bwTagID)))).trace ++
                [Event.sleep 100] ++ evsR = _
          rw [hP1]
          simp [World.emit]
        · have h0 : evsP.count (Event.sleep 100) = 0 :=
            List.count_eq_zero_of_not_mem (hP2 100)
          have h3 : eligibleCount ((processPage app env photos
              (w.emit (Event.dbQuery (Stmt.selectPhotos app.bwTagID)))).emit
                (Event.sleep 100)).db app.bwTagID =
              eligibleCount (processPage app env photos
                (w.emit (Event.dbQuery (Stmt.selectPhotos app.bwTagID)))).db app.bwTagID := rfl
          rw [h3] at hR2
          simp only [List.cons_append, List.count_cons, List.count_append, h0]
          simp
          omega

theorem processPhoto_of_failsBeforeWrite (app : App) (env : Env) (photo : Photo) (w : World)
    (h : FailsBeforeWrite app env photo w) :
    (∃ e, (processPhoto app env photo w).1 = Except.error e) ∧
      (processPhoto app env photo w).2 = afterDownload app env photo w := by
  rw [processPhoto_eq]
  rcases h with ⟨e, he⟩ | ⟨img, e, hd, hg⟩
  · rw [he]; exact ⟨⟨_, rfl⟩, rfl⟩
  · rw [hd]; simp only []; rw [hg]; exact ⟨⟨_, rfl⟩, rfl⟩

theorem processPhoto_db_cases (app : App) (env : Env) (photo : Photo) (w : World) :
    (processPhoto app env photo w).2.db = w.db ∨
      ∃ v now, (processPhoto app env photo w).2.db = sqlUpdatePhoto w.db v photo.ID now ∨
        (processPhoto app env photo w).2.db =
          sqlInsertIgnorePhotoTag (sqlUpdatePhoto w.db v photo.ID now) app.bwTagID photo.ID := by
  rw [processPhoto_eq]
  cases (downloadAndAnalyzeImage app env photo w).1 with
  | error err => exact Or.inl rfl
  | ok img =>
    simp only []
    cases env.IsGrayscale img app.config.GrayscaleTolerance with
    | error err => exact Or.inl rfl
    | ok b =>
      simp only []
      cases env.dbErr (afterDownload app env photo w).clock
          (Stmt.updatePhoto (bwValueOf b) photo.ID) with
      | some err => exact Or.inl rfl
      | none =>
        cases b with
        | false => exact Or.inr ⟨0, _, Or.inl rfl⟩
        | true =>
          simp only [if_true]
          cases env.dbErr ((afterDownload app env photo w).clock + 1)
              (Stmt.insertIgnorePhotoTag app.bwTagID photo.ID) with
          | some err => exact Or.inr ⟨1, _, Or.inl rfl⟩
          | none => exact Or.inr ⟨1, _, Or.inr rfl⟩

theorem stillEligible_update (db : Store) (tagID : Int) (photoID : String) (v : Int)
    (otherID : String) (now : Nat) (hne : otherID ≠ photoID)
    (h : StillEligible db tagID photoID) :
    StillEligible (sqlUpdatePhoto db v otherID now) tagID photoID := by
  obtain ⟨r, hr, hid, he⟩ := h
  refine ⟨r, ?_, hid, ?_⟩
  · unfold sqlUpdatePhoto
    simp only [List.mem_map]
    refine ⟨r, hr, ?_⟩
    have : r.id ≠ otherID := by rw [hid]; exact fun h => hne h.symm
    simp [this]
  · rw [eligible_iff] at he ⊢
    exact he

theorem stillEligible_insertIgnore (db : Store) (tagID : Int) (photoID : String)
    (tagID2 : Int) (otherID : String) (hne : otherID ≠ photoID)
    (h : StillEligible db tagID photoID) :
    StillEligible (sqlInsertIgnorePhotoTag db tagID2 otherID) tagID photoID := by
  obtain ⟨r, hr, hid, he⟩ := h
  refine ⟨r, ?_, hid, ?_⟩
  · rw [sqlInsertIgnorePhotoTag_photos]; exact hr
  · rw [eligible_iff] at he ⊢
    obtain ⟨h1, h2, h3, h4⟩ := he
    refine ⟨?_, h2, h3, h4⟩
    intro pt hpt hcon
    rcases (mem_sqlInsertIgnorePhotoTag db tagID2 otherID pt).mp hpt with hold | hnew
    · exact h1 pt hold hcon
    · rw [hnew] at hcon
      exact hne (hcon.1.trans hid)

theorem stillEligible_select_ne_nil (db : Store) (tagID : Int) (photoID : String)
    (h : StillEligible db tagID photoID) : selectPhotosToProcess db tagID ≠ [] := by
  intro hnil
  have h0 := eligibleCount_of_select_nil db tagID hnil
  unfold eligibleCount at h0
  rw [List.countP_eq_zero] at h0
  obtain ⟨r, hr, _, he⟩ := h
  exact h0 r hr he

theorem processPhoto_clock_le (app : App) (env : Env) (photo : Photo) (w : World) :
    w.clock ≤ (processPhoto app env photo w).2.clock := by
  rw [processPhoto_eq]
  cases (downloadAndAnalyzeImage app env photo w).1 with
  | error err => simp [afterDownload]
  | ok img =>
    simp only []
    cases env.IsGrayscale img app.config.GrayscaleTolerance with
    | error err => simp [afterDownload]
    | ok b =>
      simp only []
      cases env.dbErr (afterDownload app env photo w).clock
          (Stmt.updatePhoto (bwValueOf b) photo.ID) with
      | some err => simp [afterDownload, World.emit]; omega
      | none =>
        cases b with
        | false => simp [afterDownload]; omega
        | true => simp [afterDownload]; omega

theorem mem_candidates_of_page (db : Store) (tagID : Int) (photo : Photo)
    (h : photo ∈ (selectPhotosToProcess db tagID).map scanPhoto) :
    photo ∈ candidates db tagID := by
  rw [List.mem_map] at h
  obtain ⟨rr, hrr, rfl⟩ := h
  obtain ⟨jr, hj, hw, rfl⟩ := mem_selectPhotosToProcess _ _ _ hrr
  unfold candidates
  rw [List.mem_map]
  exact ⟨jr, List.mem_filter.mpr ⟨hj, hw⟩, rfl⟩

theorem mem_candidates_of_refines {a b : Store} (h : Refines a b) (tagID : Int)
    (photo : Photo) (hp : photo ∈ candidates b tagID) : photo ∈ candidates a tagID := by
  obtain ⟨f, hf1, hf2, hf3, hf4⟩ := h
  unfold candidates at hp ⊢
  rw [List.mem_map] at hp ⊢
  obtain ⟨jr, hjr, rfl⟩ := hp
  rw [List.mem_filter] at hjr
  obtain ⟨hj, hw⟩ := hjr
  refine ⟨jr, List.mem_filter.mpr ⟨?_, hw⟩, rfl⟩
  obtain ⟨hw1, hw2, _, _⟩ := (whereClause_iff jr).mp hw
  rw [mem_joinedRows] at hj ⊢
  obtain ⟨hp1, hp2, hp3, hp4⟩ := hj
  rw [hf4] at hp3 hp4
  refine ⟨?_, ?_, hp3, hp4⟩
  · rw [hf1, List.mem_map] at hp1
    obtain ⟨r0, hr0, hfr⟩ := hp1
    have hnone : (f r0)._dz_bw = none := by rw [hfr]; exact hw2
    have e := (hf2 r0).2 hnone
    rw [← hfr, e]
    exact hr0
  · rw [hw1, mem_leftJoin] at hp2 ⊢
    rcases hp2 with ⟨_, hnil⟩ | ⟨x, _, hx⟩
    · left
      refine ⟨rfl, ?_⟩
      rw [List.filter_eq_nil_iff] at hnil ⊢
      intro pt hpt
      exact hnil pt (hf3 pt hpt)
    · cases hx

theorem stillEligible_processPhoto (app : App) (env : Env) (photoID : String)
    (photo : Photo) (w : World)
    (hf : photo.ID = photoID → FailsBeforeWrite app env photo w)
    (h : StillEligible w.db app.bwTagID photoID) :
    StillEligible (processPhoto app env photo w).2.db app.bwTagID photoID := by
  by_cases hid : photo.ID = photoID
  · rw [(processPhoto_of_failsBeforeWrite app env photo w (hf hid)).2]
    exact h
  · rcases processPhoto_db_cases app env photo w with h0 | ⟨v, now, h1 | h1⟩
    · rw [h0]; exact h
    · rw [h1]; exact stillEligible_update _ _ _ _ _ _ hid h
    · rw [h1]
      exact stillEligible_insertIgnore _ _ _ _ _ hid (stillEligible_update _ _ _ _ _ _ hid h)

theorem stillEligible_processPage (app : App) (env : Env) (photoID : String) (c0 : Nat)
    (photos : List Photo)
    (hf : ∀ photo ∈ photos, photo.ID = photoID →
      ∀ w1 : World, c0 ≤ w1.clock → FailsBeforeWrite app env photo w1) :
    ∀ w : World, c0 ≤ w.clock → StillEligible w.db app.bwTagID photoID →
      StillEligible (processPage app env photos w).db app.bwTagID photoID ∧
        c0 ≤ (processPage app env photos w).clock := by
  induction photos with
  | nil => intro w hc h; exact ⟨h, hc⟩
  | cons photo rest ih =>
    intro w hc h
    rw [processPage_cons]
    apply ih (fun p hp => hf p (List.mem_cons_of_mem _ hp))
    · exact Nat.le_trans hc (processPhoto_clock_le app env photo w)
    · exact stillEligible_processPhoto app env photoID photo w
        (fun hid => hf photo (List.mem_cons_self _ _) hid w hc) h

theorem processPhotos_never_done (app : App) (env : Env) (photoID : String) (c0 : Nat)
    (cands : List Photo)
    (hq : ∀ t, env.dbErr t (Stmt.selectPhotos app.bwTagID) = none)
    (hr : ∀ t, env.rowsDelivered t = none)
    (hs : ∀ t i, env.scanErr t i = none)
    (hf : ∀ photo ∈ cands, photo.ID = photoID →
      ∀ w1 : World, c0 ≤ w1.clock → FailsBeforeWrite app env photo w1)
    (fuel : Nat) :
    ∀ w : World, c0 ≤ w.clock →
      (∀ photo ∈ candidates w.db app.bwTagID, photo ∈ cands) →
      StillEligible w.db app.bwTagID photoID →
      (processPhotos app env fuel w).1 = none ∧
        StillEligible (processPhotos app env fuel w).2.db app.bwTagID photoID := by
  induction fuel with
  | zero => intro w _ _ h; exact ⟨rfl, h⟩
  | succ fuel ih =>
    intro w hc hsub h
    rw [processPhotos_succ, getPhotosToProcess_full app env w (hq w.clock) (hr w.clock)
      (hs w.clock)]
    simp only []
    have hne := stillEligible_select_ne_nil w.db app.bwTagID photoID h
    have hlen : ¬ ((selectPhotosToProcess w.db app.bwTagID).map scanPhoto).length = 0 := by
      intro hl
      rw [List.length_map] at hl
      exact hne (List.length_eq_zero.mp hl)
    rw [if_neg hlen]
    have hpage := stillEligible_processPage app env photoID c0
      ((selectPhotosToProcess w.db app.bwTagID).map scanPhoto)
      (fun photo hp => hf photo (hsub photo (mem_candidates_of_page _ _ photo hp)))
      (w.emit (Event.dbQuery (Stmt.selectPhotos app.bwTagID)))
      (by show c0 ≤ w.clock + 1; omega) h
    apply ih
    · show c0 ≤ (processPage app env _
        (w.emit (Event.dbQuery (Stmt.selectPhotos app.bwTagID)))).clock + 1
      have := hpage.2
      omega
    · intro photo hp
      apply hsub
      have hlater : StoreLater w.db (processPage app env
          ((selectPhotosToProcess w.db app.bwTagID).map scanPhoto)
          (w.emit (Event.dbQuery (Stmt.selectPhotos app.bwTagID)))).db :=
        processPage_later app env _ (w.emit (Event.dbQuery (Stmt.selectPhotos app.bwTagID)))
      exact mem_candidates_of_refines (refines_of_later hlater) app.bwTagID photo hp
    · exact hpage.1

/-- C10 (counterexample to the claim as worded): on `exStore`, which has two
eligible rows, no photo is dispatched in either run, so every dispatched
photo gets through the flag write.  When the selection query fails,
`processPhotos` returns that error, not nil, and both rows are still
eligible.  When the result set breaks off before its first row,
`getPhotosToProcess` returns an empty page with a nil error, `processPhotos`
returns nil, and both rows are still eligible. -/
theorem processPhotos_termination_counterexample :
    eligibleCount exStore 7 = 2 ∧
      photosSucceed exApp exEnvQueryFails 3 exWorld = true ∧
      (processPhotos exApp exEnvQueryFails 3 exWorld).1 =
        some (Except.error (Error.wrapError "failed to get photos to process: "
          (Error.wrapError "failed to query photos: "
            (Error.errorString "invalid connection")))) ∧
      eligibleCount (processPhotos exApp exEnvQueryFails 3 exWorld).2.db 7 = 2 ∧
      photosSucceed exApp exEnvRowsBreak 3 exWorld = true ∧
      (processPhotos exApp exEnvRowsBreak 3 exWorld).1 = some (Except.ok ()) ∧
      eligibleCount (processPhotos exApp exEnvRowsBreak 3 exWorld).2.db 7 = 2 := by
  refine ⟨by decide, by decide, rfl, by decide, by decide, rfl, by decide⟩

/-- C10 (amended): a page on which every dispatched photo gets through the
flag write leaves strictly fewer eligible photo rows than there were.  Hence
a run from a store with `n` eligible rows in which every dispatched photo
gets through the flag write ends within `n + 1` iterations, with at most `n`
non-empty pages (one pause each).  It returns nil when no selection query and
no row scan fails, and when it returns nil and every result set was delivered
to its end, no eligible row remains.  Without the hypothesis on the photos
the loop need not end: if every query is answered in full and some eligible
photo fails acquisition or classification on every attempt of the run, then
no number of iterations completes the run, and the selection is still
non-empty. -/
theorem processPhotos_termination (app : App) (env : Env) :
    (∀ (w : World) (photos : List Photo),
      (getPhotosToProcess app env w).1 = Except.ok photos → photos ≠ [] →
      pageSucceeds app env photos (getPhotosToProcess app env w).2 = true →
      eligibleCount (processPage app env photos (getPhotosToProcess app env w).2).db
        app.bwTagID < eligibleCount w.db app.bwTagID) ∧
    (∀ (w : World) (fuel : Nat), eligibleCount w.db app.bwTagID < fuel →
      photosSucceed app env fuel w = true →
      (∃ r, (processPhotos app env fuel w).1 = some r) ∧
      (newEvents w (processPhotos app env fuel w).2).count (Event.sleep 100) ≤
        eligibleCount w.db app.bwTagID ∧
      ((∀ t, env.dbErr t (Stmt.selectPhotos app.bwTagID) = none) →
        (∀ t i, env.scanErr t i = none) →
        (processPhotos app env fuel w).1 = some (Except.ok ())) ∧
      ((∀ t, env.rowsDelivered t = none) →
        (processPhotos app env fuel w).1 = some (Except.ok ()) →
        eligibleCount (processPhotos app env fuel w).2.db app.bwTagID = 0)) ∧
    (∀ (w : World) (r : PhotoRow),
      (∀ t, env.dbErr t (Stmt.selectPhotos app.bwTagID) = none) →
      (∀ t, env.rowsDelivered t = none) →
      (∀ t i, env.scanErr t i = none) →
      r ∈ w.db.photos → eligible w.db app.bwTagID r = true →
      (∀ photo ∈ candidates w.db app.bwTagID, photo.ID = r.id →
        ∀ w1 : World, w.clock ≤ w1.clock → FailsBeforeWrite app env photo w1) →
      ∀ fuel : Nat, (processPhotos app env fuel w).1 = none ∧
        selectPhotosToProcess (processPhotos app env fuel w).2.db app.bwTagID ≠ []) := by
  refine ⟨?_, ?_, ?_⟩
  · intro w photos hq hne hs
    exact processPage_eligibleCount_lt app env w photos hq hne hs
  · intro w fuel hlt hrun
    obtain ⟨h1, h2, h3, evs, h4, h5⟩ := processPhotos_terminates_aux app env fuel w hlt hrun
    refine ⟨h1, ?_, h2, h3⟩
    rw [newEvents_of_append w _ evs h4]
    exact h5
  · intro w r hq hr hs hmem he hf fuel
    obtain ⟨h1, h2⟩ := processPhotos_never_done app env r.id w.clock
      (candidates w.db app.bwTagID) hq hr hs hf fuel w (Nat.le_refl _) (fun _ h => h)
      ⟨r, hmem, rfl, he⟩
    exact ⟨h1, stillEligible_select_ne_nil _ _ _ h2⟩

/-- Witness for C10: on `exStore` (two eligible rows) with everything
succeeding the run ends within three iterations, with nil and no eligible row
left; when only the one rendition of photo `c` answers 500, photo `c` stays
eligible and five iterations do not complete the run. -/
theorem processPhotos_termination_witness :
    (processPhotos exApp exEnv 3 exWorld).1 = some (Except.ok ()) ∧
      eligibleCount (processPhotos exApp exEnv 3 exWorld).2.db 7 = 0 ∧
      (processPhotos exApp exEnvOriginalCFails 5 exWorld).1 = none :=
  have h := (processPhotos_termination exApp exEnv).2.1 exWorld 3 (by decide) (by decide)
  have h2 := (processPhotos_termination exApp exEnvOriginalCFails).2.2 exWorld
    { id := "c", type := "image/png", checksum := "c3", _dz_bw := none,
      created_at := 2, updated_at := 0 }
    (fun _ => rfl) (fun _ => rfl) (fun _ _ => rfl) (by decide) (by decide)
    (fun photo hmem hid w1 _ => by
      have hc : candidates exWorld.db exApp.bwTagID = [exPhotoA, exPhotoC] := by decide
      rw [hc] at hmem
      rcases List.mem_cons.mp hmem with rfl | hmem2
      · exact absurd hid (by decide)
      · rcases List.mem_cons.mp hmem2 with rfl | hmem3
        · exact Or.inl ⟨_, rfl⟩
        · cases hmem3)
    5
  ⟨h.2.2.1 (fun _ => rfl) (fun _ _ => rfl),
    h.2.2.2 (fun _ => rfl) (h.2.2.1 (fun _ => rfl) (fun _ _ => rfl)), h2.1⟩

end LycheeBW
